import Mathlib

/-!
Driver pata-gpio: bit-banged PATA register access and IDENTIFY DEVICE.

A shallow embedding of `src/pata-gpio.c`.

The GPIO consumer library (`gpiod_*`) is not part of the repository, so it is a
parameter of the model: a `Bus` decides the outcome of every GPIO call from the
history of the calls made so far.  Every GPIO call of the driver is recorded as
an event; the state of the wires (direction and driven level of the data-bus
lines, chip-select and address lines) is read off that history.

Histories are kept newest event first.
-/

namespace PataGpio

/-! ## GPIO events and the bus -/

/-- The GPIO groups claimed by the driver (`struct gpio_descs *` fields of `struct pata_gpio`). -/
inductive Group
  | led
  | databus
  | cs
  | address
  deriving DecidableEq, Repr

/-- The single GPIO lines of the driver (`struct gpio_desc *` fields of `struct pata_gpio`). -/
inductive Pin
  | reset
  | strobe_read
  | strobe_write
  deriving DecidableEq, Repr

/-- One call into the GPIO library (or the sleep primitive) together with what it returned. -/
inductive Ev
  /-- Call `gpiod_set_array_value_cansleep(ndescs, ..., &bits)` on a group, returning `err`. -/
  | set_array (g : Group) (ndescs : Nat) (bits : Nat) (err : Int)
  /-- Call `gpiod_get_array_value_cansleep(ndescs, ..., &value)` on the data bus, returning `err`
  and leaving `bits` in the bitmap. -/
  | get_array (ndescs : Nat) (err : Int) (bits : Nat)
  /-- Call `gpiod_direction_input(databus->desc[line])`, returning `err`. -/
  | direction_input (line : Nat) (err : Int)
  /-- Call `gpiod_direction_output(databus->desc[line], value)`, returning `err`. -/
  | direction_output (line : Nat) (value : Nat) (err : Int)
  /-- Call `gpiod_set_value_cansleep(pin, value)`; returns nothing. -/
  | set_value (p : Pin) (value : Nat)
  /-- Call `usleep_range(min, max)`. -/
  | usleep_range (min max : Nat)
  deriving DecidableEq, Repr

/-- History of GPIO calls, newest first. -/
abbrev Trace := List Ev

/-- The GPIO bus adapter: the return code (and sampled bitmap) of each library call, as a
function of the history of calls made before it. `0` is success, anything else an error code. -/
structure Bus where
  set_array_value : Trace → Group → Nat → Nat → Int
  get_array_value : Trace → Nat → Int × Nat
  direction_input : Trace → Nat → Int
  direction_output : Trace → Nat → Nat → Int

/-- A `struct gpio_descs`: only the line count `ndescs` matters, lines are named by index. -/
structure gpio_descs where
  ndescs : Nat
  deriving DecidableEq, Repr

/-- The `struct pata_gpio` after its four groups have been claimed. -/
structure pata_gpio where
  led_gpios : gpio_descs
  databus_gpios : gpio_descs
  cs_gpios : gpio_descs
  address_gpios : gpio_descs
  deriving DecidableEq, Repr

/-- The cardinalities `pata_gpio_probe` insists on: led 4, databus 16, cs 2, address 3. -/
def claimed : pata_gpio :=
  { led_gpios := ⟨4⟩, databus_gpios := ⟨16⟩, cs_gpios := ⟨2⟩, address_gpios := ⟨3⟩ }

/-! ## Wire state read off a history -/

/-- Direction of a GPIO line. -/
inductive Dir
  | input
  | output
  deriving DecidableEq, Repr

/-- Direction of data-bus line `l`: set by the last successful direction call on it.
The data bus is claimed with `GPIOD_IN`, so it starts as input. -/
def dirOf : Trace → Nat → Dir
  | [], _ => Dir.input
  | Ev.direction_input line err :: h, l =>
      if line = l ∧ err = 0 then Dir.input else dirOf h l
  | Ev.direction_output line _ err :: h, l =>
      if line = l ∧ err = 0 then Dir.output else dirOf h l
  | _ :: h, l => dirOf h l

/-- Level last driven on data-bus line `l` by a successful `gpiod_direction_output`. -/
def levelOf : Trace → Nat → Bool
  | [], _ => false
  | Ev.direction_output line value err :: h, l =>
      if line = l ∧ err = 0 then decide (value ≠ 0) else levelOf h l
  | _ :: h, l => levelOf h l

/-- Level of line `i` of an output group (`cs`, `address`): bit `i` of the bitmap of the last
successful array write that covered the line. Output groups are claimed `GPIOD_OUT_LOW`. -/
def groupLine (g : Group) : Trace → Nat → Bool
  | [], _ => false
  | Ev.set_array g1 ndescs bits err :: h, i =>
      if g1 = g ∧ err = 0 ∧ i < ndescs then bits.testBit i else groupLine g h i
  | _ :: h, i => groupLine g h i

/-- The number whose bit `i` is the level of line `i`, for lines `0 .. n-1`. -/
def lineWord (f : Nat → Bool) : Nat → Nat
  | 0 => 0
  | n + 1 => lineWord f n + (if f n then 2 ^ n else 0)

/-- The word on the chip-select lines. -/
def csWord (pata : pata_gpio) (h : Trace) : Nat :=
  lineWord (groupLine Group.cs h) pata.cs_gpios.ndescs

/-- The word on the address lines. -/
def addrWord (pata : pata_gpio) (h : Trace) : Nat :=
  lineWord (groupLine Group.address h) pata.address_gpios.ndescs

/-- The word last driven on the data bus (bit `i` is the level last driven on line `i`). -/
def busWord (pata : pata_gpio) (h : Trace) : Nat :=
  lineWord (levelOf h) pata.databus_gpios.ndescs

/-- A register transaction as the drive sees it on its pins. -/
inductive Txn
  | write (reg : Nat) (value : Nat)
  | read (reg : Nat)
  deriving DecidableEq, Repr

/-- The register transactions of a history, oldest first: every assertion of the write strobe
while chip-select is `0b01` is a write of the word on the data bus to the register on the
address lines, every assertion of the read strobe a read of that register. -/
def transactions (pata : pata_gpio) : Trace → List Txn
  | [] => []
  | Ev.set_value p value :: h =>
      if value ≠ 0 ∧ csWord pata h = 1 then
        match p with
        | Pin.strobe_write => transactions pata h ++ [Txn.write (addrWord pata h) (busWord pata h)]
        | Pin.strobe_read => transactions pata h ++ [Txn.read (addrWord pata h)]
        | Pin.reset => transactions pata h
      else transactions pata h
  | _ :: h => transactions pata h

/-- Number of `gpiod_set_value_cansleep(pin, value)` calls in a history. -/
def setValueCount (p : Pin) (value : Nat) (h : Trace) : Nat :=
  h.count (Ev.set_value p value)

/-- Whether an event is a call on one of the single lines (strobes, reset). -/
def isPinEvent : Ev → Bool
  | Ev.set_value _ _ => true
  | _ => false

/-- Whether an event is a `gpiod_direction_input` call. -/
def isDirectionInput : Ev → Bool
  | Ev.direction_input _ _ => true
  | _ => false

/-- Number of completed samples of the data bus taken while the address lines selected the
Data register (register 0). -/
def dataReads (pata : pata_gpio) : Trace → Nat
  | [] => 0
  | Ev.get_array _ _ _ :: h => dataReads pata h + (if addrWord pata h = 0 then 1 else 0)
  | _ :: h => dataReads pata h

/-! ## The GPIO calls -/

/-- Call `gpiod_set_array_value_cansleep` on group `g`. -/
def gpiod_set_array_value_cansleep (bus : Bus) (h : Trace) (g : Group) (ndescs bits : Nat) :
    Int × Trace :=
  let err := bus.set_array_value h g ndescs bits
  (err, Ev.set_array g ndescs bits err :: h)

/-- Call `gpiod_get_array_value_cansleep` on the data bus: the library fills `ndescs` bits of the
bitmap, which the caller initialised to 0. -/
def gpiod_get_array_value_cansleep (bus : Bus) (h : Trace) (ndescs : Nat) : Int × Nat × Trace :=
  let r := bus.get_array_value h ndescs
  let value := r.2 % 2 ^ ndescs
  (r.1, value, Ev.get_array ndescs r.1 value :: h)

/-- Call `gpiod_direction_input` on data-bus line `line`. -/
def gpiod_direction_input (bus : Bus) (h : Trace) (line : Nat) : Int × Trace :=
  let err := bus.direction_input h line
  (err, Ev.direction_input line err :: h)

/-- Call `gpiod_direction_output` on data-bus line `line`. -/
def gpiod_direction_output (bus : Bus) (h : Trace) (line value : Nat) : Int × Trace :=
  let err := bus.direction_output h line value
  (err, Ev.direction_output line value err :: h)

/-! ## Register access -/

/-- Source function `pata_gpio_set_register` (lines 23-39). -/
def pata_gpio_set_register (bus : Bus) (pata : pata_gpio) (h : Trace) (reg : Nat) : Int × Trace :=
  let cs_state := 0b01
  let r := gpiod_set_array_value_cansleep bus h Group.cs pata.cs_gpios.ndescs cs_state
  if r.1 ≠ 0 then r
  else gpiod_set_array_value_cansleep bus r.2 Group.address pata.address_gpios.ndescs reg

/-- The loop `for (i = 0; i < ndescs; i++) { err = gpiod_direction_input(desc[i]); if (err)
return err; }` of lines 47-51 and 93-97, started at index `i` with `rem = ndescs - i` iterations
left. A non-zero first component is the early `return err`. The index is a `u8` in the source,
which the model follows for `ndescs ≤ 255`; the probe fixes the data bus at 16 lines. -/
def direction_input_loop (bus : Bus) : Nat → Nat → Trace → Int × Trace
  | 0, _, h => (0, h)
  | rem + 1, i, h =>
      let r := gpiod_direction_input bus h i
      if r.1 ≠ 0 then r else direction_input_loop bus rem (i + 1) r.2

/-- The loop of lines 82-86: drive line `i` with bit `i` of `value`, returning early on the
first error. -/
def direction_output_loop (bus : Bus) (value : Nat) : Nat → Nat → Trace → Int × Trace
  | 0, _, h => (0, h)
  | rem + 1, i, h =>
      let r := gpiod_direction_output bus h i ((value >>> i) &&& 0x01)
      if r.1 ≠ 0 then r else direction_output_loop bus value rem (i + 1) r.2

/-- Source function `pata_gpio_read16` (lines 41-71). `result` is the content of `*result` before the call;
the components returned are the return code, the content of `*result` afterwards (a `u16`)
and the history. -/
def pata_gpio_read16 (bus : Bus) (pata : pata_gpio) (h : Trace) (reg : Nat) (result : Nat) :
    Int × Nat × Trace :=
  let r1 := direction_input_loop bus pata.databus_gpios.ndescs 0 h
  if r1.1 ≠ 0 then (r1.1, result, r1.2)
  else
    let r2 := pata_gpio_set_register bus pata r1.2 reg
    if r2.1 ≠ 0 then (r2.1, result, r2.2)
    else
      let h3 := Ev.usleep_range 1 100 :: Ev.set_value Pin.strobe_read 1 :: r2.2
      let r4 := gpiod_get_array_value_cansleep bus h3 pata.databus_gpios.ndescs
      let h5 := Ev.set_value Pin.strobe_read 0 :: r4.2.2
      (r4.1, if r4.1 = 0 then r4.2.1 % 2 ^ 16 else result, h5)

/-- Source function `pata_gpio_write16` (lines 73-100). -/
def pata_gpio_write16 (bus : Bus) (pata : pata_gpio) (h : Trace) (reg : Nat) (value : Nat) :
    Int × Trace :=
  let r1 := pata_gpio_set_register bus pata h reg
  if r1.1 ≠ 0 then r1
  else
    let r2 := direction_output_loop bus value pata.databus_gpios.ndescs 0 r1.2
    if r2.1 ≠ 0 then r2
    else
      let h3 := Ev.usleep_range 1 100 :: Ev.set_value Pin.strobe_write 0 ::
        Ev.usleep_range 1 100 :: Ev.set_value Pin.strobe_write 1 :: r2.2
      direction_input_loop bus pata.databus_gpios.ndescs 0 h3

/-! ## IDENTIFY DEVICE -/

/-- Register numbers and sizes of lines 102-113 (`CF_BASE_REG + n`). -/
def SECTOR_SIZE : Nat := 512
def CF_BASE_REG : Nat := 0
def CF_DATA : Nat := CF_BASE_REG + 0
def CF_NUMSECT : Nat := CF_BASE_REG + 2
def CF_ADDR0 : Nat := CF_BASE_REG + 3
def CF_ADDR1 : Nat := CF_BASE_REG + 4
def CF_ADDR2 : Nat := CF_BASE_REG + 5
def CF_ADDR3 : Nat := CF_BASE_REG + 6
def CF_STATUS : Nat := CF_BASE_REG + 7
def CF_COMMAND : Nat := CF_BASE_REG + 7

/-- State of the burst loop of `cf_identify`: the local `result`, the bytes stored through
`*data++` so far (in order) and the history. -/
structure Burst where
  result : Nat
  data : List Nat
  trace : Trace

/-- The loop `for (i = 0; i < SECTOR_SIZE; i += 2)` of lines 148-153 with `rem` iterations
left. The return code of `pata_gpio_read16` is discarded. -/
def burst_loop (bus : Bus) (pata : pata_gpio) : Nat → Burst → Burst
  | 0, s => s
  | rem + 1, s =>
      let r := pata_gpio_read16 bus pata s.trace CF_DATA s.result
      burst_loop bus pata rem
        { result := r.2.1
          data := s.data ++ [(r.2.1 >>> 8) &&& 0xFF, r.2.1 &&& 0xFF]
          trace := r.2.2 }

/-- What `cf_identify` leaves behind: its return value, the bytes it stored in the caller's
buffer (in order, starting at `data[0]`) and the history. -/
structure Identify where
  ret : Int
  data : List Nat
  trace : Trace

/-- Source function `cf_identify` (lines 116-162). `result0` is the indeterminate initial content of the local
`u16 result`. The return codes of all seven register calls are discarded, as in the source. -/
def cf_identify (bus : Bus) (pata : pata_gpio) (h : Trace) (result0 : Nat) : Identify :=
  let h1 := (pata_gpio_write16 bus pata h CF_ADDR3 0xA0).2
  let h2 := (pata_gpio_write16 bus pata h1 CF_NUMSECT 0x00).2
  let h3 := (pata_gpio_write16 bus pata h2 CF_ADDR0 0x00).2
  let h4 := (pata_gpio_write16 bus pata h3 CF_ADDR1 0x00).2
  let h5 := (pata_gpio_write16 bus pata h4 CF_ADDR2 0x00).2
  let h6 := (pata_gpio_write16 bus pata h5 CF_COMMAND 0xEC).2
  let r := pata_gpio_read16 bus pata h6 CF_STATUS result0
  if r.2.1 ≠ 0x00 then
    let s := burst_loop bus pata (SECTOR_SIZE / 2)
      { result := r.2.1, data := [], trace := Ev.usleep_range 1000000 1000000 :: r.2.2 }
    { ret := 1, data := s.data, trace := s.trace }
  else
    { ret := 0, data := [], trace := r.2.2 }

/-! ## Probe -/

/-- Linux errno `ENOMEM`. -/
def ENOMEM : Int := 12

/-- Linux errno `EINVAL`. -/
def EINVAL : Int := 22

/-- Source function `claim_gpios` (lines 213-227). `gpios` is what `devm_gpiod_get_array` returned: `none` is
`NULL`, `some g` an obtained group (an `ERR_PTR`, which the source would dereference, is not
modelled). `target` is the content of `*target` before the call; the result is the return code
and the content of `*target` afterwards. -/
def claim_gpios (target : Option gpio_descs) (count : Nat) (gpios : Option gpio_descs) :
    Int × Option gpio_descs :=
  match gpios with
  | none => (-ENOMEM, target)
  | some g =>
      if g.ndescs ≠ count then (-EINVAL, target)
      else (0, some g)

/-- What `devm_gpiod_get` returns for a single line: `NULL`, an `ERR_PTR(e)`, or a descriptor. -/
inductive desc_ptr
  | null
  | err (e : Int)
  | ok
  deriving DecidableEq, Repr

/-- The platform layer behind `pata_gpio_probe`: whether `devm_kzalloc` succeeds, the group
`devm_gpiod_get_array` returns for each name, the line `devm_gpiod_get` returns for each name. -/
structure Platform where
  kzalloc_ok : Bool
  get_array : Group → Option gpio_descs
  get : Pin → desc_ptr

/-- The register dump loop of lines 316-324 (`for (i = 0; i < 8; ++i)`); only logging depends on
the outcome of each read. -/
def dump_loop (bus : Bus) (pata : pata_gpio) (junk : Nat) : Nat → Nat → Trace → Trace
  | 0, _, h => h
  | rem + 1, i, h => dump_loop bus pata junk rem (i + 1) (pata_gpio_read16 bus pata h i junk).2.2

/-- Lines 266-335 of `pata_gpio_probe`, after the four groups are claimed. -/
def probe_lines (plat : Platform) (bus : Bus) (pata : pata_gpio) (h : Trace) (junk : Nat) :
    Int × Trace :=
  match plat.get Pin.reset with
  | desc_ptr.null => (-ENOMEM, h)
  | desc_ptr.err e => (e, h)
  | desc_ptr.ok =>
    match plat.get Pin.strobe_read with
    | desc_ptr.null => (-ENOMEM, h)
    | desc_ptr.err e => (e, h)
    | desc_ptr.ok =>
      match plat.get Pin.strobe_write with
      | desc_ptr.null => (-ENOMEM, h)
      | desc_ptr.err e => (e, h)
      | desc_ptr.ok =>
        let h1 := Ev.usleep_range 1000000 1000000 :: Ev.usleep_range 10 1000 ::
          Ev.set_value Pin.reset 0 :: Ev.usleep_range 10 1000 :: Ev.set_value Pin.reset 1 :: h
        let h2 := dump_loop bus pata junk 8 0 h1
        (0, (cf_identify bus pata h2 junk).trace)

/-- Source function `pata_gpio_probe` (lines 229-335). The four group fields start as `NULL` (`devm_kzalloc`
zeroes the structure) and are filled by `claim_gpios`; `junk` stands for the indeterminate
initial content of the `u16 result` locals. Logging is not modelled. -/
def pata_gpio_probe (plat : Platform) (bus : Bus) (h : Trace) (junk : Nat) : Int × Trace :=
  if plat.kzalloc_ok = false then (-ENOMEM, h)
  else
    let led := claim_gpios none 4 (plat.get_array Group.led)
    if led.1 ≠ 0 then (led.1, h)
    else
      let databus := claim_gpios none 16 (plat.get_array Group.databus)
      if databus.1 ≠ 0 then (databus.1, h)
      else
        let cs := claim_gpios none 2 (plat.get_array Group.cs)
        if cs.1 ≠ 0 then (cs.1, h)
        else
          let address := claim_gpios none 3 (plat.get_array Group.address)
          if address.1 ≠ 0 then (address.1, h)
          else
            match led.2, databus.2, cs.2, address.2 with
            | some l, some d, some c, some a =>
                probe_lines plat bus
                  { led_gpios := l, databus_gpios := d, cs_gpios := c, address_gpios := a } h junk
            | _, _, _, _ => (-ENOMEM, h)

/-! ## Histories of successful loops -/

/-- History after lines `i .. i+n-1` of the data bus were switched to input successfully. -/
def inputs_done : Nat → Nat → Trace → Trace
  | 0, _, h => h
  | n + 1, i, h => inputs_done n (i + 1) (Ev.direction_input i 0 :: h)

/-- History after lines `i .. i+n-1` of the data bus were driven successfully with their bits
of `value`. -/
def outputs_done (value : Nat) : Nat → Nat → Trace → Trace
  | 0, _, h => h
  | n + 1, i, h =>
      outputs_done value n (i + 1) (Ev.direction_output i ((value >>> i) &&& 0x01) 0 :: h)

/-- History after a successful `pata_gpio_set_register` on `claimed`. -/
def selected (reg : Nat) (h : Trace) : Trace :=
  Ev.set_array Group.address 3 reg 0 :: Ev.set_array Group.cs 2 1 0 :: h

/-- Every GPIO call on the bus succeeds. -/
def Succeeds (bus : Bus) : Prop :=
  (∀ h g n v, bus.set_array_value h g n v = 0) ∧
  (∀ h n, (bus.get_array_value h n).1 = 0) ∧
  (∀ h i, bus.direction_input h i = 0) ∧
  (∀ h i v, bus.direction_output h i v = 0)

/-- History after a successful `pata_gpio_write16` on `claimed`. -/
def written (reg value : Nat) (h : Trace) : Trace :=
  inputs_done 16 0 (Ev.usleep_range 1 100 :: Ev.set_value Pin.strobe_write 0 ::
    Ev.usleep_range 1 100 :: Ev.set_value Pin.strobe_write 1 ::
    outputs_done value 16 0 (selected reg h))

/-- History of `pata_gpio_read16` on `claimed` at the moment the data bus is sampled, when the
direction and register-select steps succeeded. -/
def sampling (reg : Nat) (h : Trace) : Trace :=
  Ev.usleep_range 1 100 :: Ev.set_value Pin.strobe_read 1 :: selected reg (inputs_done 16 0 h)

/-- History after `pata_gpio_read16` on `claimed` sampled the bus with return code `err` and
bitmap `bits`. -/
def sampled (reg : Nat) (err : Int) (bits : Nat) (h : Trace) : Trace :=
  Ev.set_value Pin.strobe_read 0 :: Ev.get_array 16 err bits :: sampling reg h

/-- The bytes of the words `w j, w (j+1), ..., w (j+n-1)`, high byte first. -/
def expand (w : Nat → Nat) : Nat → Nat → List Nat
  | 0, _ => []
  | n + 1, j => ((w j >>> 8) &&& 0xFF) :: (w j &&& 0xFF) :: expand w n (j + 1)

/-- The register transactions of IDENTIFY DEVICE up to and including the presence check. -/
def identify_prologue : List Txn :=
  [Txn.write 6 0xA0, Txn.write 2 0x00, Txn.write 3 0x00, Txn.write 4 0x00, Txn.write 5 0x00,
   Txn.write 7 0xEC, Txn.read 7]

/-- History after the six register writes of `cf_identify` succeeded. -/
def commanded (h : Trace) : Trace :=
  written 7 0xEC (written 5 0 (written 4 0 (written 3 0 (written 2 0 (written 6 0xA0 h)))))

/-- What the bus answers when `pata_gpio_read16` samples it after the register-select step left
history `hs`: the read strobe is asserted and the settle delay has elapsed. -/
def sampleAt (bus : Bus) (hs : Trace) : Int × Nat :=
  bus.get_array_value (Ev.usleep_range 1 100 :: Ev.set_value Pin.strobe_read 1 :: hs) 16

/-- The cardinality `pata_gpio_probe` requires of each group (lines 242-260). -/
def required : Group → Nat
  | Group.led => 4
  | Group.databus => 16
  | Group.cs => 2
  | Group.address => 3

/-- The groups `pata_gpio_probe` claims before it claims `g` (lines 242-260). -/
def claimedBefore : Group → List Group
  | Group.led => []
  | Group.databus => [Group.led]
  | Group.cs => [Group.led, Group.databus]
  | Group.address => [Group.led, Group.databus, Group.cs]

/-- History of `cf_identify` on `claimed`, started at `h`, once the status read stored the
non-zero `status`, the one-second delay elapsed and the first `i` reads of the Data register
stored `w 0, ..., w (i-1)`; the next read of the Data register samples the bus at
`sampling 0 (identified status w h i)`. -/
def identified (status : Nat) (w : Nat → Nat) (h : Trace) : Nat → Trace
  | 0 => Ev.usleep_range 1000000 1000000 :: sampled 7 0 status (commanded h)
  | i + 1 => sampled 0 0 (w i) (identified status w h i)

/-! ## Mock buses -/

/-- A mock drive on which every GPIO call succeeds: sampling the bus while the address lines
select register 7 gives `status`, otherwise the next word of `w`. -/
def mockDrive (status : Nat) (w : Nat → Nat) : Bus where
  set_array_value := fun _ _ _ _ => 0
  get_array_value := fun h _ =>
    (0, if addrWord claimed h = 7 then status else w (dataReads claimed h))
  direction_input := fun _ _ => 0
  direction_output := fun _ _ _ => 0

/-- A mock drive on which every GPIO call succeeds and whose Status register answers the
command: sampled at register 7 it gives `before` until `0xEC` has been written to register 7 and
`after` from then on; sampled elsewhere it gives the next word of `w`. -/
def commandDrive (before after : Nat) (w : Nat → Nat) : Bus where
  set_array_value := fun _ _ _ _ => 0
  get_array_value := fun h _ =>
    (0, if addrWord claimed h = 7 then
          (if Txn.write 7 0xEC ∈ transactions claimed h then after else before)
        else w (dataReads claimed h))
  direction_input := fun _ _ => 0
  direction_output := fun _ _ _ => 0

/-- The words `0x0102, 0x0304, ..., 0xFF00`. -/
def patternWord (i : Nat) : Nat := (((2 * i + 1) % 256) <<< 8) ||| ((2 * i + 2) % 256)

/-- A loopback bus: every call succeeds and sampling returns the levels last driven. -/
def loopbackBus : Bus where
  set_array_value := fun _ _ _ _ => 0
  get_array_value := fun h n => (0, lineWord (levelOf h) n)
  direction_input := fun _ _ => 0
  direction_output := fun _ _ _ => 0

/-- A bus on which `gpiod_direction_output` always fails with `-5` (`-EIO`) and every other call
succeeds; the drive answers every sample with `0x50`. -/
def outputFailBus : Bus where
  set_array_value := fun _ _ _ _ => 0
  get_array_value := fun _ _ => (0, 0x50)
  direction_input := fun _ _ => 0
  direction_output := fun _ _ _ => -5

/-- A bus on which `gpiod_direction_input` fails with `-5` on line 0 once the write strobe has
been pulsed, and every other call succeeds. -/
def releaseFailBus : Bus where
  set_array_value := fun _ _ _ _ => 0
  get_array_value := fun _ _ => (0, 0)
  direction_input := fun h i =>
    if i = 0 ∧ 0 < h.count (Ev.set_value Pin.strobe_write 1) then -5 else 0
  direction_output := fun _ _ _ => 0

/-- A bus on which sampling the data bus fails with `-5` and every other call succeeds. -/
def sampleFailBus : Bus where
  set_array_value := fun _ _ _ _ => 0
  get_array_value := fun _ _ => (-5, 0)
  direction_input := fun _ _ => 0
  direction_output := fun _ _ _ => 0

/-- A bus on which driving data-bus line 3 fails with `-5` and every other call succeeds. -/
def line3FailBus : Bus where
  set_array_value := fun _ _ _ _ => 0
  get_array_value := fun _ _ => (0, 0)
  direction_input := fun _ _ => 0
  direction_output := fun _ i _ => if i = 3 then -5 else 0

/-- A platform on which everything is obtained, the data bus having `n` lines. -/
def platformWithDatabus (n : Nat) : Platform where
  kzalloc_ok := true
  get_array := fun g =>
    match g with
    | Group.led => some ⟨4⟩
    | Group.databus => some ⟨n⟩
    | Group.cs => some ⟨2⟩
    | Group.address => some ⟨3⟩
  get := fun _ => desc_ptr.ok

/-! ## Loop lemmas -/

theorem inputs_done_succ (n i : Nat) (h : Trace) :
    inputs_done (n + 1) i h = Ev.direction_input (i + n) 0 :: inputs_done n i h := by
  induction n generalizing i h with
  | zero => rfl
  | succ n ih =>
      rw [inputs_done, ih, inputs_done]
      have e : i + 1 + n = i + (n + 1) := by omega
      rw [e]

theorem outputs_done_succ (v n i : Nat) (h : Trace) :
    outputs_done v (n + 1) i h =
      Ev.direction_output (i + n) ((v >>> (i + n)) &&& 0x01) 0 :: outputs_done v n i h := by
  induction n generalizing i h with
  | zero => rfl
  | succ n ih =>
      rw [outputs_done, ih, outputs_done]
      have e : i + 1 + n = i + (n + 1) := by omega
      rw [e]

theorem direction_input_loop_ok (bus : Bus) (n i : Nat) (h : Trace)
    (hok : ∀ j, j < n → bus.direction_input (inputs_done j i h) (i + j) = 0) :
    direction_input_loop bus n i h = (0, inputs_done n i h) := by
  induction n generalizing i h with
  | zero => rfl
  | succ n ih =>
      have h0 : bus.direction_input h i = 0 := by simpa [inputs_done] using hok 0 (by omega)
      simp only [direction_input_loop, gpiod_direction_input, h0, ne_eq, not_true_eq_false,
        if_false, inputs_done]
      apply ih
      intro j hj
      have := hok (j + 1) (by omega)
      simpa [inputs_done, Nat.add_assoc, Nat.add_comm 1 j] using this

theorem direction_input_loop_fail (bus : Bus) (n i k : Nat) (h : Trace) (e : Int)
    (hk : k < n) (hok : ∀ j, j < k → bus.direction_input (inputs_done j i h) (i + j) = 0)
    (hfail : bus.direction_input (inputs_done k i h) (i + k) = e) (he : e ≠ 0) :
    direction_input_loop bus n i h = (e, Ev.direction_input (i + k) e :: inputs_done k i h) := by
  induction n generalizing i h k with
  | zero => omega
  | succ n ih =>
      cases k with
      | zero =>
          simp only [inputs_done, Nat.add_zero] at hfail
          simp [direction_input_loop, gpiod_direction_input, hfail, he, inputs_done]
      | succ k =>
          have h0 : bus.direction_input h i = 0 := by simpa [inputs_done] using hok 0 (by omega)
          simp only [direction_input_loop, gpiod_direction_input, h0, ne_eq, not_true_eq_false,
            if_false, inputs_done]
          have e1 : i + (k + 1) = i + 1 + k := by omega
          rw [e1]
          apply ih (i + 1) k _ (by omega)
          · intro j hj
            have := hok (j + 1) (by omega)
            simpa [inputs_done, Nat.add_assoc, Nat.add_comm 1 j] using this
          · simpa [inputs_done, Nat.add_assoc, Nat.add_comm 1 k] using hfail

theorem direction_output_loop_ok (bus : Bus) (v n i : Nat) (h : Trace)
    (hok : ∀ j, j < n →
      bus.direction_output (outputs_done v j i h) (i + j) ((v >>> (i + j)) &&& 0x01) = 0) :
    direction_output_loop bus v n i h = (0, outputs_done v n i h) := by
  induction n generalizing i h with
  | zero => rfl
  | succ n ih =>
      have h0 : bus.direction_output h i ((v >>> i) &&& 0x01) = 0 := by
        simpa [outputs_done] using hok 0 (by omega)
      simp only [direction_output_loop, gpiod_direction_output, h0, ne_eq, not_true_eq_false,
        if_false, outputs_done]
      apply ih
      intro j hj
      have := hok (j + 1) (by omega)
      simpa [outputs_done, Nat.add_assoc, Nat.add_comm 1 j] using this

theorem direction_output_loop_fail (bus : Bus) (v n i k : Nat) (h : Trace) (e : Int)
    (hk : k < n)
    (hok : ∀ j, j < k →
      bus.direction_output (outputs_done v j i h) (i + j) ((v >>> (i + j)) &&& 0x01) = 0)
    (hfail : bus.direction_output (outputs_done v k i h) (i + k) ((v >>> (i + k)) &&& 0x01) = e)
    (he : e ≠ 0) :
    direction_output_loop bus v n i h =
      (e, Ev.direction_output (i + k) ((v >>> (i + k)) &&& 0x01) e :: outputs_done v k i h) := by
  induction n generalizing i h k with
  | zero => omega
  | succ n ih =>
      cases k with
      | zero =>
          simp only [outputs_done, Nat.add_zero] at hfail
          simp only [direction_output_loop, gpiod_direction_output, hfail, outputs_done,
            Nat.add_zero, ne_eq, he, not_false_eq_true, if_true]
      | succ k =>
          have h0 : bus.direction_output h i ((v >>> i) &&& 0x01) = 0 := by
            simpa [outputs_done] using hok 0 (by omega)
          simp only [direction_output_loop, gpiod_direction_output, h0, ne_eq, not_true_eq_false,
            if_false, outputs_done]
          have e1 : i + (k + 1) = i + 1 + k := by omega
          rw [e1]
          apply ih (i + 1) k _ (by omega)
          · intro j hj
            have := hok (j + 1) (by omega)
            simpa [outputs_done, Nat.add_assoc, Nat.add_comm 1 j] using this
          · simpa [outputs_done, Nat.add_assoc, Nat.add_comm 1 k] using hfail

/-! ## Wire state after the loops -/

theorem lineWord_congr (f g : Nat → Bool) (n : Nat) (hfg : ∀ i, i < n → f i = g i) :
    lineWord f n = lineWord g n := by
  induction n with
  | zero => rfl
  | succ n ih =>
      rw [lineWord, lineWord, ih (fun i hi => hfg i (by omega)), hfg n (by omega)]

theorem lineWord_testBit (v n : Nat) : lineWord (fun i => v.testBit i) n = v % 2 ^ n := by
  induction n with
  | zero => simp [lineWord, Nat.mod_one]
  | succ n ih =>
      rw [lineWord, ih, Nat.mod_pow_succ, Nat.testBit_to_div_mod]
      rcases Nat.mod_two_eq_zero_or_one (v / 2 ^ n) with h0 | h1
      · simp [h0]
      · simp [h1]

theorem lineWord_of_testBit (f : Nat → Bool) (v n : Nat) (hf : ∀ i, i < n → f i = v.testBit i) :
    lineWord f n = v % 2 ^ n := by
  rw [lineWord_congr f (fun i => v.testBit i) n hf, lineWord_testBit]

theorem bit_ne_zero (v l : Nat) : decide ((v >>> l) &&& 0x01 ≠ 0) = v.testBit l := by
  rw [Nat.testBit_to_div_mod, Nat.shiftRight_eq_div_pow, Nat.and_one_is_mod]
  rcases Nat.mod_two_eq_zero_or_one (v / 2 ^ l) with h0 | h1
  · simp [h0]
  · simp [h1]

theorem dirOf_inputs_done (n i : Nat) (h : Trace) (l : Nat) :
    dirOf (inputs_done n i h) l = if i ≤ l ∧ l < i + n then Dir.input else dirOf h l := by
  induction n generalizing i h with
  | zero =>
      have h0 : ¬ (i ≤ l ∧ l < i + 0) := by omega
      rw [if_neg h0]; rfl
  | succ n ih =>
      rw [inputs_done, ih, dirOf]
      by_cases h1 : i = l
      · subst h1; simp
      · by_cases h2 : i + 1 ≤ l ∧ l < i + 1 + n
        · have h3 : i ≤ l ∧ l < i + (n + 1) := by omega
          simp [h2, h3]
        · have h3 : ¬ (i ≤ l ∧ l < i + (n + 1)) := by omega
          simp [h1, h2, h3]

theorem dirOf_outputs_done (v n i : Nat) (h : Trace) (l : Nat) :
    dirOf (outputs_done v n i h) l = if i ≤ l ∧ l < i + n then Dir.output else dirOf h l := by
  induction n generalizing i h with
  | zero =>
      have h0 : ¬ (i ≤ l ∧ l < i + 0) := by omega
      rw [if_neg h0]; rfl
  | succ n ih =>
      rw [outputs_done, ih, dirOf]
      by_cases h1 : i = l
      · subst h1; simp
      · by_cases h2 : i + 1 ≤ l ∧ l < i + 1 + n
        · have h3 : i ≤ l ∧ l < i + (n + 1) := by omega
          simp [h2, h3]
        · have h3 : ¬ (i ≤ l ∧ l < i + (n + 1)) := by omega
          simp [h1, h2, h3]

theorem levelOf_inputs_done (n i : Nat) (h : Trace) : levelOf (inputs_done n i h) = levelOf h := by
  induction n generalizing i h with
  | zero => rfl
  | succ n ih =>
      rw [inputs_done, ih]
      funext l
      rfl

theorem levelOf_outputs_done (v n i : Nat) (h : Trace) (l : Nat) :
    levelOf (outputs_done v n i h) l =
      if i ≤ l ∧ l < i + n then v.testBit l else levelOf h l := by
  induction n generalizing i h with
  | zero =>
      have h0 : ¬ (i ≤ l ∧ l < i + 0) := by omega
      rw [if_neg h0]; rfl
  | succ n ih =>
      rw [outputs_done, ih, levelOf]
      by_cases h1 : i = l
      · subst h1
        simp only [true_and, if_true, bit_ne_zero]
        simp
      · by_cases h2 : i + 1 ≤ l ∧ l < i + 1 + n
        · have h3 : i ≤ l ∧ l < i + (n + 1) := by omega
          simp [h2, h3]
        · have h3 : ¬ (i ≤ l ∧ l < i + (n + 1)) := by omega
          simp [h1, h2, h3]

theorem groupLine_inputs_done (g : Group) (n i : Nat) (h : Trace) :
    groupLine g (inputs_done n i h) = groupLine g h := by
  induction n generalizing i h with
  | zero => rfl
  | succ n ih =>
      rw [inputs_done, ih]
      funext l
      rfl

theorem groupLine_outputs_done (g : Group) (v n i : Nat) (h : Trace) :
    groupLine g (outputs_done v n i h) = groupLine g h := by
  induction n generalizing i h with
  | zero => rfl
  | succ n ih =>
      rw [outputs_done, ih]
      funext l
      rfl

theorem transactions_inputs_done (pata : pata_gpio) (n i : Nat) (h : Trace) :
    transactions pata (inputs_done n i h) = transactions pata h := by
  induction n generalizing i h with
  | zero => rfl
  | succ n ih => rw [inputs_done, ih]; simp [transactions]

theorem transactions_outputs_done (pata : pata_gpio) (v n i : Nat) (h : Trace) :
    transactions pata (outputs_done v n i h) = transactions pata h := by
  induction n generalizing i h with
  | zero => rfl
  | succ n ih => rw [outputs_done, ih]; simp [transactions]

theorem dataReads_inputs_done (pata : pata_gpio) (n i : Nat) (h : Trace) :
    dataReads pata (inputs_done n i h) = dataReads pata h := by
  induction n generalizing i h with
  | zero => rfl
  | succ n ih => rw [inputs_done, ih]; simp [dataReads]

theorem dataReads_outputs_done (pata : pata_gpio) (v n i : Nat) (h : Trace) :
    dataReads pata (outputs_done v n i h) = dataReads pata h := by
  induction n generalizing i h with
  | zero => rfl
  | succ n ih => rw [outputs_done, ih]; simp [dataReads]

theorem count_inputs_done (e : Ev) (he : isDirectionInput e = false) (n i : Nat) (h : Trace) :
    (inputs_done n i h).count e = h.count e := by
  induction n generalizing i h with
  | zero => rfl
  | succ n ih =>
      rw [inputs_done, ih, List.count_cons]
      have : (Ev.direction_input i 0 == e) = false := by
        cases e <;> simp_all [isDirectionInput]
      simp [this]

theorem count_outputs_done (p : Pin) (x : Nat) (v n i : Nat) (h : Trace) :
    (outputs_done v n i h).count (Ev.set_value p x) = h.count (Ev.set_value p x) := by
  induction n generalizing i h with
  | zero => rfl
  | succ n ih =>
      rw [outputs_done, ih, List.count_cons]
      simp

theorem countP_outputs_done (v n i : Nat) (h : Trace) :
    (outputs_done v n i h).countP isDirectionInput = h.countP isDirectionInput := by
  induction n generalizing i h with
  | zero => rfl
  | succ n ih =>
      rw [outputs_done, ih, List.countP_cons]
      simp [isDirectionInput]

/-! ## Wire state after register access -/

theorem claimed_databus : claimed.databus_gpios.ndescs = 16 := rfl

theorem claimed_cs : claimed.cs_gpios.ndescs = 2 := rfl

theorem claimed_address : claimed.address_gpios.ndescs = 3 := rfl

theorem levelOf_usleep (a b : Nat) (h : Trace) :
    levelOf (Ev.usleep_range a b :: h) = levelOf h := by funext l; rfl

theorem levelOf_set_value (p : Pin) (x : Nat) (h : Trace) :
    levelOf (Ev.set_value p x :: h) = levelOf h := by funext l; rfl

theorem levelOf_set_array (g : Group) (n b : Nat) (e : Int) (h : Trace) :
    levelOf (Ev.set_array g n b e :: h) = levelOf h := by funext l; rfl

theorem levelOf_get_array (n b : Nat) (e : Int) (h : Trace) :
    levelOf (Ev.get_array n e b :: h) = levelOf h := by funext l; rfl

theorem levelOf_direction_input (i : Nat) (e : Int) (h : Trace) :
    levelOf (Ev.direction_input i e :: h) = levelOf h := by funext l; rfl

theorem dirOf_usleep (a b : Nat) (h : Trace) :
    dirOf (Ev.usleep_range a b :: h) = dirOf h := by funext l; rfl

theorem dirOf_set_value (p : Pin) (x : Nat) (h : Trace) :
    dirOf (Ev.set_value p x :: h) = dirOf h := by funext l; rfl

theorem dirOf_set_array (g : Group) (n b : Nat) (e : Int) (h : Trace) :
    dirOf (Ev.set_array g n b e :: h) = dirOf h := by funext l; rfl

theorem dirOf_get_array (n b : Nat) (e : Int) (h : Trace) :
    dirOf (Ev.get_array n e b :: h) = dirOf h := by funext l; rfl

theorem dirOf_direction_input_err (k : Nat) (e : Int) (h : Trace) (he : e ≠ 0) :
    dirOf (Ev.direction_input k e :: h) = dirOf h := by
  funext l
  simp [dirOf, he]

theorem groupLine_usleep (g : Group) (a b : Nat) (h : Trace) :
    groupLine g (Ev.usleep_range a b :: h) = groupLine g h := by funext l; rfl

theorem groupLine_set_value (g : Group) (p : Pin) (x : Nat) (h : Trace) :
    groupLine g (Ev.set_value p x :: h) = groupLine g h := by funext l; rfl

theorem groupLine_get_array (g : Group) (n b : Nat) (e : Int) (h : Trace) :
    groupLine g (Ev.get_array n e b :: h) = groupLine g h := by funext l; rfl

theorem transactions_usleep (pata : pata_gpio) (a b : Nat) (h : Trace) :
    transactions pata (Ev.usleep_range a b :: h) = transactions pata h := rfl

theorem transactions_set_array (pata : pata_gpio) (g : Group) (n b : Nat) (e : Int) (h : Trace) :
    transactions pata (Ev.set_array g n b e :: h) = transactions pata h := rfl

theorem transactions_get_array (pata : pata_gpio) (n b : Nat) (e : Int) (h : Trace) :
    transactions pata (Ev.get_array n e b :: h) = transactions pata h := rfl

theorem transactions_set_low (pata : pata_gpio) (p : Pin) (h : Trace) :
    transactions pata (Ev.set_value p 0 :: h) = transactions pata h := by
  simp [transactions]

theorem transactions_strobe_write (pata : pata_gpio) (h : Trace) (hcs : csWord pata h = 1) :
    transactions pata (Ev.set_value Pin.strobe_write 1 :: h) =
      transactions pata h ++ [Txn.write (addrWord pata h) (busWord pata h)] := by
  simp [transactions, hcs]

theorem transactions_strobe_read (pata : pata_gpio) (h : Trace) (hcs : csWord pata h = 1) :
    transactions pata (Ev.set_value Pin.strobe_read 1 :: h) =
      transactions pata h ++ [Txn.read (addrWord pata h)] := by
  simp [transactions, hcs]

theorem dataReads_usleep (pata : pata_gpio) (a b : Nat) (h : Trace) :
    dataReads pata (Ev.usleep_range a b :: h) = dataReads pata h := rfl

theorem dataReads_set_value (pata : pata_gpio) (p : Pin) (x : Nat) (h : Trace) :
    dataReads pata (Ev.set_value p x :: h) = dataReads pata h := rfl

theorem dataReads_set_array (pata : pata_gpio) (g : Group) (n b : Nat) (e : Int) (h : Trace) :
    dataReads pata (Ev.set_array g n b e :: h) = dataReads pata h := rfl

theorem groupLine_cs_selected (reg : Nat) (h : Trace) (i : Nat) (hi : i < 2) :
    groupLine Group.cs (selected reg h) i = Nat.testBit 1 i := by
  simp [selected, groupLine, hi]

theorem groupLine_address_selected (reg : Nat) (h : Trace) (i : Nat) (hi : i < 3) :
    groupLine Group.address (selected reg h) i = reg.testBit i := by
  simp [selected, groupLine, hi]

theorem csWord_selected (reg : Nat) (h : Trace) : csWord claimed (selected reg h) = 1 := by
  unfold csWord
  rw [claimed_cs, lineWord_of_testBit _ 1 _ (fun i hi => groupLine_cs_selected reg h i hi)]
  rfl

theorem addrWord_selected (reg : Nat) (h : Trace) :
    addrWord claimed (selected reg h) = reg % 8 := by
  unfold addrWord
  rw [claimed_address,
    lineWord_of_testBit _ reg _ (fun i hi => groupLine_address_selected reg h i hi)]
  rfl

theorem busWord_outputs_done (v : Nat) (h : Trace) :
    busWord claimed (outputs_done v 16 0 h) = v % 65536 := by
  unfold busWord
  rw [claimed_databus, lineWord_of_testBit _ v _ (fun i hi => by
    rw [levelOf_outputs_done]
    simp [hi])]
  rfl

theorem groupLine_written (g : Group) (reg v : Nat) (h : Trace) :
    groupLine g (written reg v h) = groupLine g (selected reg h) := by
  simp only [written, groupLine_inputs_done, groupLine_usleep, groupLine_set_value,
    groupLine_outputs_done]

theorem csWord_written (reg v : Nat) (h : Trace) : csWord claimed (written reg v h) = 1 := by
  unfold csWord
  rw [groupLine_written]
  exact csWord_selected reg h

theorem addrWord_written (reg v : Nat) (h : Trace) :
    addrWord claimed (written reg v h) = reg % 8 := by
  unfold addrWord
  rw [groupLine_written]
  exact addrWord_selected reg h

theorem levelOf_written (reg v : Nat) (h : Trace) (l : Nat) :
    levelOf (written reg v h) l = if l < 16 then v.testBit l else levelOf h l := by
  simp only [written, levelOf_inputs_done, levelOf_usleep, levelOf_set_value,
    levelOf_outputs_done, selected, levelOf_set_array]
  simp

theorem dirOf_written (reg v : Nat) (h : Trace) (l : Nat) :
    dirOf (written reg v h) l = if l < 16 then Dir.input else dirOf h l := by
  simp only [written, dirOf_inputs_done, dirOf_usleep, dirOf_set_value,
    dirOf_outputs_done, selected, dirOf_set_array]
  by_cases hl : l < 16 <;> simp [hl]

theorem transactions_written (reg v : Nat) (h : Trace) :
    transactions claimed (written reg v h) =
      transactions claimed h ++ [Txn.write (reg % 8) (v % 65536)] := by
  have hcs : csWord claimed (outputs_done v 16 0 (selected reg h)) = 1 := by
    unfold csWord
    rw [groupLine_outputs_done]
    exact csWord_selected reg h
  have haddr : addrWord claimed (outputs_done v 16 0 (selected reg h)) = reg % 8 := by
    unfold addrWord
    rw [groupLine_outputs_done]
    exact addrWord_selected reg h
  simp only [written, transactions_inputs_done, transactions_usleep, transactions_set_low,
    transactions_strobe_write _ _ hcs, haddr, busWord_outputs_done, transactions_outputs_done]
  simp only [selected, transactions_set_array]

theorem dataReads_written (reg v : Nat) (h : Trace) :
    dataReads claimed (written reg v h) = dataReads claimed h := by
  simp only [written, dataReads_inputs_done, dataReads_usleep, dataReads_set_value,
    dataReads_outputs_done, selected, dataReads_set_array]

theorem addrWord_sampling (reg : Nat) (h : Trace) :
    addrWord claimed (sampling reg h) = reg % 8 := by
  unfold sampling addrWord
  rw [groupLine_usleep, groupLine_set_value]
  exact addrWord_selected reg _

theorem csWord_sampling (reg : Nat) (h : Trace) : csWord claimed (sampling reg h) = 1 := by
  unfold sampling csWord
  rw [groupLine_usleep, groupLine_set_value]
  exact csWord_selected reg _

theorem dataReads_sampling (reg : Nat) (h : Trace) :
    dataReads claimed (sampling reg h) = dataReads claimed h := by
  simp only [sampling, selected, dataReads_usleep, dataReads_set_value, dataReads_set_array,
    dataReads_inputs_done]

theorem levelOf_sampling (reg : Nat) (h : Trace) : levelOf (sampling reg h) = levelOf h := by
  simp only [sampling, selected, levelOf_usleep, levelOf_set_value, levelOf_set_array,
    levelOf_inputs_done]

theorem transactions_sampled (reg : Nat) (err : Int) (bits : Nat) (h : Trace) :
    transactions claimed (sampled reg err bits h) =
      transactions claimed h ++ [Txn.read (reg % 8)] := by
  simp only [sampled, sampling, transactions_set_low, transactions_get_array,
    transactions_usleep, transactions_strobe_read _ _ (csWord_selected reg _),
    addrWord_selected]
  simp only [selected, transactions_set_array, transactions_inputs_done]

theorem dataReads_sampled (reg : Nat) (err : Int) (bits : Nat) (h : Trace) :
    dataReads claimed (sampled reg err bits h) =
      dataReads claimed h + (if reg % 8 = 0 then 1 else 0) := by
  simp only [sampled, dataReads, addrWord_sampling, dataReads_sampling]

/-! ## Shape of the history a loop leaves -/

theorem direction_input_loop_zero (bus : Bus) (n i : Nat) (h : Trace)
    (hz : (direction_input_loop bus n i h).1 = 0) :
    (direction_input_loop bus n i h).2 = inputs_done n i h := by
  induction n generalizing i h with
  | zero => rfl
  | succ n ih =>
      simp only [direction_input_loop, gpiod_direction_input] at hz ⊢
      by_cases h0 : bus.direction_input h i = 0
      · simp only [h0, ne_eq, not_true_eq_false, if_false] at hz ⊢
        rw [ih _ _ hz]
        rfl
      · simp only [ne_eq, h0, not_false_eq_true, if_true] at hz

theorem direction_input_loop_nonzero (bus : Bus) (n i : Nat) (h : Trace)
    (hz : (direction_input_loop bus n i h).1 ≠ 0) :
    ∃ k, k < n ∧ (direction_input_loop bus n i h).2 =
      Ev.direction_input (i + k) (direction_input_loop bus n i h).1 :: inputs_done k i h := by
  induction n generalizing i h with
  | zero => exact absurd rfl hz
  | succ n ih =>
      simp only [direction_input_loop, gpiod_direction_input] at hz ⊢
      by_cases h0 : bus.direction_input h i = 0
      · simp only [h0, ne_eq, not_true_eq_false, if_false] at hz ⊢
        obtain ⟨k, hk, hshape⟩ := ih _ _ hz
        refine ⟨k + 1, by omega, ?_⟩
        rw [hshape, inputs_done]
        have e1 : i + 1 + k = i + (k + 1) := by omega
        rw [e1]
      · simp only [ne_eq, h0, not_false_eq_true, if_true]
        exact ⟨0, by omega, rfl⟩

theorem direction_output_loop_zero (bus : Bus) (v n i : Nat) (h : Trace)
    (hz : (direction_output_loop bus v n i h).1 = 0) :
    (direction_output_loop bus v n i h).2 = outputs_done v n i h := by
  induction n generalizing i h with
  | zero => rfl
  | succ n ih =>
      simp only [direction_output_loop, gpiod_direction_output] at hz ⊢
      by_cases h0 : bus.direction_output h i ((v >>> i) &&& 0x01) = 0
      · simp only [h0, ne_eq, not_true_eq_false, if_false] at hz ⊢
        rw [ih _ _ hz]
        rfl
      · simp only [ne_eq, h0, not_false_eq_true, if_true] at hz

theorem direction_output_loop_nonzero (bus : Bus) (v n i : Nat) (h : Trace)
    (hz : (direction_output_loop bus v n i h).1 ≠ 0) :
    ∃ k, k < n ∧ (direction_output_loop bus v n i h).2 =
      Ev.direction_output (i + k) ((v >>> (i + k)) &&& 0x01)
        (direction_output_loop bus v n i h).1 :: outputs_done v k i h := by
  induction n generalizing i h with
  | zero => exact absurd rfl hz
  | succ n ih =>
      simp only [direction_output_loop, gpiod_direction_output] at hz ⊢
      by_cases h0 : bus.direction_output h i ((v >>> i) &&& 0x01) = 0
      · simp only [h0, ne_eq, not_true_eq_false, if_false] at hz ⊢
        obtain ⟨k, hk, hshape⟩ := ih _ _ hz
        refine ⟨k + 1, by omega, ?_⟩
        rw [hshape, outputs_done]
        have e1 : i + 1 + k = i + (k + 1) := by omega
        rw [e1]
      · simp only [ne_eq, h0, not_false_eq_true, if_true]
        exact ⟨0, by omega, rfl⟩

theorem set_register_zero (bus : Bus) (h : Trace) (reg : Nat)
    (hz : (pata_gpio_set_register bus claimed h reg).1 = 0) :
    (pata_gpio_set_register bus claimed h reg).2 = selected reg h := by
  simp only [pata_gpio_set_register, gpiod_set_array_value_cansleep, claimed_cs,
    claimed_address] at hz ⊢
  by_cases h0 : bus.set_array_value h Group.cs 2 1 = 0
  · simp only [h0, ne_eq, not_true_eq_false, if_false] at hz ⊢
    rw [hz]
    rfl
  · simp only [ne_eq, h0, not_false_eq_true, if_true] at hz

theorem set_register_shape (bus : Bus) (h : Trace) (reg : Nat) :
    ∃ g n b rest, (pata_gpio_set_register bus claimed h reg).2 =
      Ev.set_array g n b (pata_gpio_set_register bus claimed h reg).1 :: rest := by
  simp only [pata_gpio_set_register, gpiod_set_array_value_cansleep]
  by_cases h0 : bus.set_array_value h Group.cs claimed.cs_gpios.ndescs 1 = 0
  · simp only [h0, ne_eq, not_true_eq_false, if_false]
    exact ⟨_, _, _, _, rfl⟩
  · simp only [ne_eq, h0, not_false_eq_true, if_true]
    exact ⟨_, _, _, _, rfl⟩

theorem set_register_ok (bus : Bus) (hok : Succeeds bus) (h : Trace) (reg : Nat) :
    pata_gpio_set_register bus claimed h reg = (0, selected reg h) := by
  simp [pata_gpio_set_register, gpiod_set_array_value_cansleep, hok.1, selected, claimed]

theorem write16_ok (bus : Bus) (hok : Succeeds bus) (h : Trace) (reg v : Nat) :
    pata_gpio_write16 bus claimed h reg v = (0, written reg v h) := by
  simp only [pata_gpio_write16, set_register_ok bus hok, claimed_databus, ne_eq,
    not_true_eq_false, if_false,
    direction_output_loop_ok bus v 16 0 _ (fun j _ => hok.2.2.2 _ _ _),
    direction_input_loop_ok bus 16 0 _ (fun j _ => hok.2.2.1 _ _), written]

theorem read16_steps (bus : Bus) (h hd hs : Trace) (reg result : Nat)
    (hdir : direction_input_loop bus 16 0 h = (0, hd))
    (hsel : pata_gpio_set_register bus claimed hd reg = (0, hs)) :
    pata_gpio_read16 bus claimed h reg result =
      ((bus.get_array_value
          (Ev.usleep_range 1 100 :: Ev.set_value Pin.strobe_read 1 :: hs) 16).1,
       (if (bus.get_array_value
          (Ev.usleep_range 1 100 :: Ev.set_value Pin.strobe_read 1 :: hs) 16).1 = 0
        then (bus.get_array_value
          (Ev.usleep_range 1 100 :: Ev.set_value Pin.strobe_read 1 :: hs) 16).2 % 65536
        else result),
       Ev.set_value Pin.strobe_read 0 ::
         Ev.get_array 16
           (bus.get_array_value
             (Ev.usleep_range 1 100 :: Ev.set_value Pin.strobe_read 1 :: hs) 16).1
           ((bus.get_array_value
             (Ev.usleep_range 1 100 :: Ev.set_value Pin.strobe_read 1 :: hs) 16).2 % 65536) ::
         Ev.usleep_range 1 100 :: Ev.set_value Pin.strobe_read 1 :: hs) := by
  simp only [pata_gpio_read16, claimed_databus, hdir, hsel, ne_eq, not_true_eq_false, if_false,
    gpiod_get_array_value_cansleep]
  norm_num

theorem read16_ok (bus : Bus) (hok : Succeeds bus) (h : Trace) (reg result : Nat) :
    pata_gpio_read16 bus claimed h reg result =
      (0, (bus.get_array_value (sampling reg h) 16).2 % 65536,
        sampled reg 0 ((bus.get_array_value (sampling reg h) 16).2 % 65536) h) := by
  rw [read16_steps bus h (inputs_done 16 0 h) (selected reg (inputs_done 16 0 h)) reg result
    (direction_input_loop_ok bus 16 0 h (fun j _ => hok.2.2.1 _ _))
    (set_register_ok bus hok _ _)]
  simp only [sampling, hok.2.1, if_true, sampled]

/-! ## Histories as appended events -/

theorem inputs_done_append (n i : Nat) (h : Trace) :
    inputs_done n i h = inputs_done n i [] ++ h := by
  induction n with
  | zero => rfl
  | succ n ih => rw [inputs_done_succ, inputs_done_succ, ih, List.cons_append]

theorem outputs_done_append (v n i : Nat) (h : Trace) :
    outputs_done v n i h = outputs_done v n i [] ++ h := by
  induction n with
  | zero => rfl
  | succ n ih => rw [outputs_done_succ, outputs_done_succ, ih, List.cons_append]

theorem inputs_done_no_pin (n i : Nat) (e : Ev) (he : e ∈ inputs_done n i []) :
    isPinEvent e = false := by
  induction n with
  | zero => simp [inputs_done] at he
  | succ n ih =>
      rw [inputs_done_succ, List.mem_cons] at he
      rcases he with rfl | he
      · rfl
      · exact ih he

theorem count_selected (p : Pin) (x reg : Nat) (h : Trace) :
    setValueCount p x (selected reg h) = setValueCount p x h := by
  simp [setValueCount, selected, List.count_cons]

theorem setValueCount_inputs_done (p : Pin) (x n i : Nat) (h : Trace) :
    setValueCount p x (inputs_done n i h) = setValueCount p x h :=
  count_inputs_done (Ev.set_value p x) rfl n i h

/-! ## Register selection (C6) -/

/-- C6: on a bus where every GPIO call succeeds, `pata_gpio_set_register(reg)` for `reg` in
`[0,7]` returns 0 and leaves chip-select line 0 high and line 1 low (the word `0b01`) and
address line `i` at bit `i` of `reg` (the address word is `reg`); and in `pata_gpio_read16`
as well as in `pata_gpio_write16` the chip-select write and then the address write are made
before any strobe line is touched: the events of the call older than the two group writes
contain no strobe operation, while the events after them do. -/
theorem set_register_lines_before_strobe (bus : Bus) (hok : Succeeds bus) (h : Trace)
    (reg result v : Nat) (hreg : reg ≤ 7) :
    (pata_gpio_set_register bus claimed h reg).1 = 0 ∧
    groupLine Group.cs (pata_gpio_set_register bus claimed h reg).2 0 = true ∧
    groupLine Group.cs (pata_gpio_set_register bus claimed h reg).2 1 = false ∧
    csWord claimed (pata_gpio_set_register bus claimed h reg).2 = 0b01 ∧
    (∀ i, i < 3 →
      groupLine Group.address (pata_gpio_set_register bus claimed h reg).2 i = reg.testBit i) ∧
    addrWord claimed (pata_gpio_set_register bus claimed h reg).2 = reg ∧
    (∃ pre post, (pata_gpio_read16 bus claimed h reg result).2.2 =
        post ++ Ev.set_array Group.address 3 reg 0 :: Ev.set_array Group.cs 2 1 0 :: (pre ++ h) ∧
      (∀ e ∈ pre, isPinEvent e = false) ∧
      post.getLast? = some (Ev.set_value Pin.strobe_read 1)) ∧
    (∃ pre post, (pata_gpio_write16 bus claimed h reg v).2 =
        post ++ Ev.set_array Group.address 3 reg 0 :: Ev.set_array Group.cs 2 1 0 :: (pre ++ h) ∧
      (∀ e ∈ pre, isPinEvent e = false) ∧
      (∃ mid, (∀ e ∈ mid, isPinEvent e = false) ∧
        ∃ later, post = later ++ Ev.set_value Pin.strobe_write 1 :: mid)) := by
  rw [set_register_ok bus hok, read16_ok bus hok, write16_ok bus hok]
  refine ⟨rfl, ?_, ?_, csWord_selected reg h, ?_, ?_, ?_, ?_⟩
  · rw [groupLine_cs_selected reg h 0 (by omega)]; rfl
  · rw [groupLine_cs_selected reg h 1 (by omega)]; rfl
  · intro i hi
    exact groupLine_address_selected reg h i hi
  · rw [addrWord_selected]; omega
  · refine ⟨inputs_done 16 0 [], [Ev.set_value Pin.strobe_read 0,
      Ev.get_array 16 0 ((bus.get_array_value (sampling reg h) 16).2 % 65536),
      Ev.usleep_range 1 100, Ev.set_value Pin.strobe_read 1], ?_, ?_, rfl⟩
    · simp only [sampled, sampling, selected]
      rw [inputs_done_append 16 0 h]
      rfl
    · intro e he
      exact inputs_done_no_pin 16 0 e he
  · refine ⟨[], inputs_done 16 0 [] ++ [Ev.usleep_range 1 100, Ev.set_value Pin.strobe_write 0,
      Ev.usleep_range 1 100] ++ Ev.set_value Pin.strobe_write 1 :: outputs_done v 16 0 [], ?_, ?_,
      outputs_done v 16 0 [], ?_, _, rfl⟩
    · simp only [written, selected]
      rw [inputs_done_append 16 0, outputs_done_append v 16 0]
      simp
    · intro e he
      simp at he
    · intro e he
      clear hok hreg
      have hgen : ∀ n i, ∀ e ∈ outputs_done v n i [], isPinEvent e = false := by
        intro n
        induction n with
        | zero => intro i e he; simp [outputs_done] at he
        | succ n ih =>
            intro i e he
            rw [outputs_done_succ, List.mem_cons] at he
            rcases he with rfl | he
            · rfl
            · exact ih i e he
      exact hgen 16 0 e he

theorem set_register_lines_before_strobe_witness :
    Succeeds loopbackBus ∧ (5 : Nat) ≤ 7 ∧
    addrWord claimed (pata_gpio_set_register loopbackBus claimed [] 5).2 = 5 := by
  have hok : Succeeds loopbackBus := ⟨fun _ _ _ _ => rfl, fun _ _ => rfl, fun _ _ => rfl,
    fun _ _ _ => rfl⟩
  exact ⟨hok, by decide,
    (set_register_lines_before_strobe loopbackBus hok [] 5 0 0 (by decide)).2.2.2.2.2.1⟩

/-! ## Read strobe (C8) -/

/-- C8: whenever the direction-setting loop and the register-select step of `pata_gpio_read16`
succeed (leaving history `hs`), the call asserts the read strobe once, waits, samples the data
bus, and then deasserts the read strobe once, whether the sample succeeds or fails; it returns
the return code of the sample; when that is non-zero `*result` keeps its old content, and when it
is zero `*result` holds the sampled word. -/
theorem read16_strobe_always_released (bus : Bus) (h hd hs : Trace) (reg result : Nat)
    (hdir : direction_input_loop bus 16 0 h = (0, hd))
    (hsel : pata_gpio_set_register bus claimed hd reg = (0, hs)) :
    (pata_gpio_read16 bus claimed h reg result).2.2 =
      Ev.set_value Pin.strobe_read 0 ::
        Ev.get_array 16 (sampleAt bus hs).1 ((sampleAt bus hs).2 % 65536) ::
        Ev.usleep_range 1 100 :: Ev.set_value Pin.strobe_read 1 :: hs ∧
    setValueCount Pin.strobe_read 1 (pata_gpio_read16 bus claimed h reg result).2.2 =
      setValueCount Pin.strobe_read 1 h + 1 ∧
    setValueCount Pin.strobe_read 0 (pata_gpio_read16 bus claimed h reg result).2.2 =
      setValueCount Pin.strobe_read 0 h + 1 ∧
    (pata_gpio_read16 bus claimed h reg result).1 = (sampleAt bus hs).1 ∧
    ((sampleAt bus hs).1 ≠ 0 → (pata_gpio_read16 bus claimed h reg result).2.1 = result) ∧
    ((sampleAt bus hs).1 = 0 →
      (pata_gpio_read16 bus claimed h reg result).1 = 0 ∧
      (pata_gpio_read16 bus claimed h reg result).2.1 = (sampleAt bus hs).2 % 65536) := by
  have hd_eq : hd = inputs_done 16 0 h := by
    have := direction_input_loop_zero bus 16 0 h (by rw [hdir])
    rw [hdir] at this
    exact this
  have hs_eq : hs = selected reg hd := by
    have := set_register_zero bus hd reg (by rw [hsel])
    rw [hsel] at this
    exact this
  have hc : ∀ x, setValueCount Pin.strobe_read x hs = setValueCount Pin.strobe_read x h := by
    intro x
    rw [hs_eq, hd_eq, count_selected, setValueCount_inputs_done]
  rw [read16_steps bus h hd hs reg result hdir hsel]
  refine ⟨rfl, ?_, ?_, rfl, ?_, ?_⟩
  · have := hc 1
    simp only [setValueCount] at this ⊢
    simp [List.count_cons, this]
  · have := hc 0
    simp only [setValueCount] at this ⊢
    simp [List.count_cons, this]
  · intro hne
    simp only [sampleAt] at hne
    simp only [hne, if_false]
  · intro hz
    simp only [sampleAt] at hz ⊢
    simp only [hz, if_true, and_self]

theorem read16_strobe_always_released_witness :
    direction_input_loop sampleFailBus 16 0 [] = (0, inputs_done 16 0 []) ∧
    pata_gpio_set_register sampleFailBus claimed (inputs_done 16 0 []) 7 =
      (0, selected 7 (inputs_done 16 0 [])) ∧
    (pata_gpio_read16 sampleFailBus claimed [] 7 0xAB).1 = -5 ∧
    (pata_gpio_read16 sampleFailBus claimed [] 7 0xAB).2.1 = 0xAB ∧
    setValueCount Pin.strobe_read 0 (pata_gpio_read16 sampleFailBus claimed [] 7 0xAB).2.2 = 1 := by
  have hdir : direction_input_loop sampleFailBus 16 0 [] = (0, inputs_done 16 0 []) := rfl
  have hsel : pata_gpio_set_register sampleFailBus claimed (inputs_done 16 0 []) 7 =
      (0, selected 7 (inputs_done 16 0 [])) := rfl
  have key := read16_strobe_always_released sampleFailBus [] _ _ 7 0xAB hdir hsel
  exact ⟨hdir, hsel, key.2.2.2.1, key.2.2.2.2.1 (by decide), key.2.2.1⟩

/-! ## Failure while driving the bus (C10) -/

/-- C10: if register selection succeeds (leaving history `hs`) and, while `pata_gpio_write16`
drives the data bus, lines `0 .. k-1` are driven successfully and driving line `k` fails with
`e`, then `pata_gpio_write16` returns `e` and the failed call is its last GPIO operation: lines
`0 .. k-1` are outputs carrying bits `0 .. k-1` of the value, the lines above `k` have the
direction and level they had before the call, the write strobe was not touched and no line was
switched back to input. -/
theorem write16_fails_fast_while_driving (bus : Bus) (h hs : Trace) (reg v k : Nat) (e : Int)
    (hsel : pata_gpio_set_register bus claimed h reg = (0, hs))
    (hk : k < 16)
    (hok : ∀ j, j < k →
      bus.direction_output (outputs_done v j 0 hs) j ((v >>> j) &&& 0x01) = 0)
    (hfail : bus.direction_output (outputs_done v k 0 hs) k ((v >>> k) &&& 0x01) = e)
    (he : e ≠ 0) :
    (pata_gpio_write16 bus claimed h reg v).1 = e ∧
    (pata_gpio_write16 bus claimed h reg v).2 =
      Ev.direction_output k ((v >>> k) &&& 0x01) e :: outputs_done v k 0 hs ∧
    (∀ l, l < k →
      dirOf (pata_gpio_write16 bus claimed h reg v).2 l = Dir.output ∧
      levelOf (pata_gpio_write16 bus claimed h reg v).2 l = v.testBit l) ∧
    (∀ l, k < l →
      dirOf (pata_gpio_write16 bus claimed h reg v).2 l = dirOf h l ∧
      levelOf (pata_gpio_write16 bus claimed h reg v).2 l = levelOf h l) ∧
    (∀ x, setValueCount Pin.strobe_write x (pata_gpio_write16 bus claimed h reg v).2 =
      setValueCount Pin.strobe_write x h) ∧
    (pata_gpio_write16 bus claimed h reg v).2.countP isDirectionInput =
      h.countP isDirectionInput := by
  have hs_eq : hs = selected reg h := by
    have := set_register_zero bus h reg (by rw [hsel])
    rw [hsel] at this
    exact this
  have hloop := direction_output_loop_fail bus v 16 0 k hs e hk
    (by intro j hj; simpa using hok j hj) (by simpa using hfail) he
  simp only [Nat.zero_add] at hloop
  have hw : pata_gpio_write16 bus claimed h reg v =
      (e, Ev.direction_output k ((v >>> k) &&& 0x01) e :: outputs_done v k 0 hs) := by
    simp only [pata_gpio_write16, hsel, claimed_databus, hloop, ne_eq, not_true_eq_false,
      if_false, he, not_false_eq_true, if_true]
  rw [hw]
  refine ⟨rfl, rfl, ?_, ?_, ?_, ?_⟩
  · intro l hl
    have hlk : ¬ (k = l ∧ e = 0) := fun hc => he hc.2
    simp only [dirOf, levelOf, hlk, if_false, dirOf_outputs_done, levelOf_outputs_done]
    simp [hl]
  · intro l hl
    have hlk : ¬ (k = l ∧ e = 0) := fun hc => he hc.2
    have hrange : ¬ (0 ≤ l ∧ l < 0 + k) := by omega
    simp only [dirOf, levelOf, hlk, if_false, dirOf_outputs_done, levelOf_outputs_done, hrange,
      hs_eq, selected, dirOf_set_array, levelOf_set_array, and_self]
  · intro x
    simp only [setValueCount, List.count_cons, count_outputs_done]
    rw [hs_eq]
    simp [selected, List.count_cons]
  · rw [List.countP_cons, countP_outputs_done, hs_eq]
    simp [selected, List.countP_cons, isDirectionInput]

theorem write16_fails_fast_while_driving_witness :
    pata_gpio_set_register line3FailBus claimed [] 2 = (0, selected 2 []) ∧
    (pata_gpio_write16 line3FailBus claimed [] 2 0xFFFF).1 = -5 ∧
    (∀ l, l < 3 →
      dirOf (pata_gpio_write16 line3FailBus claimed [] 2 0xFFFF).2 l = Dir.output ∧
      levelOf (pata_gpio_write16 line3FailBus claimed [] 2 0xFFFF).2 l =
        Nat.testBit 0xFFFF l) := by
  have hsel : pata_gpio_set_register line3FailBus claimed [] 2 = (0, selected 2 []) := rfl
  have key := write16_fails_fast_while_driving line3FailBus [] _ 2 0xFFFF 3 (-5) hsel
    (by decide) (fun j hj => by simp [line3FailBus]; omega) (by simp [line3FailBus])
    (by decide)
  exact ⟨hsel, key.1, key.2.2.1⟩

/-! ## Bus release after a write (C7) -/

/-- C7 does not hold as stated: on a bus where switching line 0 back to input fails, after
the write strobe was pulsed, `pata_gpio_write16` returns that error from its release loop at
once, and data-bus lines 1 to 15 are still outputs. -/
theorem write16_release_failure_leaves_outputs :
    (pata_gpio_write16 releaseFailBus claimed [] 0 0).1 = -5 ∧
    (pata_gpio_write16 releaseFailBus claimed [] 0 0).2.head? = some (Ev.direction_input 0 (-5)) ∧
    dirOf (pata_gpio_write16 releaseFailBus claimed [] 0 0).2 1 = Dir.output ∧
    dirOf (pata_gpio_write16 releaseFailBus claimed [] 0 0).2 15 = Dir.output := by
  decide

/-- C7 as the code has it: when `pata_gpio_write16` returns 0, all 16 data-bus lines are in
input direction; when it returns an error raised by the release loop at line `k` (its last GPIO
call is the failed `gpiod_direction_input` on line `k`), lines `0 .. k-1` are inputs and lines
`k+1 .. 15` are still outputs. -/
theorem write16_releases_bus_on_success (bus : Bus) (h tr : Trace) (reg v : Nat) (ret : Int)
    (hw : pata_gpio_write16 bus claimed h reg v = (ret, tr)) :
    (ret = 0 → ∀ l, l < 16 → dirOf tr l = Dir.input) ∧
    (∀ k e rest, ret ≠ 0 → tr = Ev.direction_input k e :: rest →
      (∀ l, l < k → dirOf tr l = Dir.input) ∧
      (∀ l, k < l → l < 16 → dirOf tr l = Dir.output)) := by
  by_cases h1 : (pata_gpio_set_register bus claimed h reg).1 = 0
  · have h1s := set_register_zero bus h reg h1
    by_cases h2 : (direction_output_loop bus v 16 0 (selected reg h)).1 = 0
    · have h2s := direction_output_loop_zero bus v 16 0 _ h2
      have hw2 : pata_gpio_write16 bus claimed h reg v =
          direction_input_loop bus 16 0 (Ev.usleep_range 1 100 ::
            Ev.set_value Pin.strobe_write 0 :: Ev.usleep_range 1 100 ::
            Ev.set_value Pin.strobe_write 1 :: outputs_done v 16 0 (selected reg h)) := by
        simp only [pata_gpio_write16, h1, h1s, claimed_databus, h2, h2s, ne_eq,
          not_true_eq_false, if_false]
      rw [hw2] at hw
      by_cases h3 : ret = 0
      · have h3s := direction_input_loop_zero bus 16 0 _ (by rw [hw]; exact h3)
        rw [hw] at h3s
        simp only at h3s
        refine ⟨?_, fun k e rest hne => absurd h3 hne⟩
        intro _ l hl
        rw [h3s, dirOf_inputs_done]
        simp [hl]
      · obtain ⟨k, hk, hshape⟩ := direction_input_loop_nonzero bus 16 0 _ (by rw [hw]; exact h3)
        rw [hw] at hshape
        simp only [Nat.zero_add] at hshape
        refine ⟨fun hz => absurd hz h3, ?_⟩
        intro k1 e rest _ htr
        rw [hshape] at htr
        have hk1 : k = k1 := by
          injection htr with hhead _
          injection hhead
        subst hk1
        constructor
        · intro l hl
          rw [hshape, dirOf_direction_input_err k ret _ h3, dirOf_inputs_done]
          simp [hl]
        · intro l hl hl16
          have hrange : ¬ (0 ≤ l ∧ l < 0 + k) := by omega
          rw [hshape, dirOf_direction_input_err k ret _ h3, dirOf_inputs_done, if_neg hrange,
            dirOf_usleep, dirOf_set_value, dirOf_usleep, dirOf_set_value, dirOf_outputs_done]
          simp [hl16]
    · have hw2 : pata_gpio_write16 bus claimed h reg v =
          direction_output_loop bus v 16 0 (selected reg h) := by
        simp only [pata_gpio_write16, h1, h1s, claimed_databus, h2, ne_eq, not_true_eq_false,
          if_false, not_false_eq_true, if_true]
      rw [hw2] at hw
      have hret : ret ≠ 0 := by
        intro hz
        apply h2
        rw [hw]
        exact hz
      obtain ⟨k, _, hshape⟩ := direction_output_loop_nonzero bus v 16 0 _ h2
      rw [hw] at hshape
      refine ⟨fun hz => absurd hz hret, ?_⟩
      intro k1 e rest _ htr
      simp only at hshape
      rw [hshape] at htr
      injection htr with hhead _
      injection hhead
  · have hw2 : pata_gpio_write16 bus claimed h reg v = pata_gpio_set_register bus claimed h reg := by
      simp only [pata_gpio_write16, h1, ne_eq, not_false_eq_true, if_true]
    rw [hw2] at hw
    have hret : ret ≠ 0 := by
      intro hz
      apply h1
      rw [hw]
      exact hz
    obtain ⟨g, n, b, rest0, hshape⟩ := set_register_shape bus h reg
    rw [hw] at hshape
    refine ⟨fun hz => absurd hz hret, ?_⟩
    intro k1 e rest _ htr
    simp only at hshape
    rw [hshape] at htr
    injection htr with hhead _
    injection hhead

theorem write16_releases_bus_on_success_witness :
    pata_gpio_write16 loopbackBus claimed [] 3 0xBEEF = (0, written 3 0xBEEF []) ∧
    ((0 : Int) = 0 → ∀ l, l < 16 → dirOf (written 3 0xBEEF []) l = Dir.input) :=
  ⟨rfl, (write16_releases_bus_on_success loopbackBus [] _ 3 0xBEEF 0 rfl).1⟩

/-! ## Write then read on a loopback bus (C2) -/

/-- C2: on a bus where every GPIO call succeeds and sampling the data bus returns, on each
line, the level last driven on it, `pata_gpio_write16(reg, v)` followed by
`pata_gpio_read16(reg)` both return 0 and the read stores exactly `v`, for every `reg` in
`[0,7]` and every `v` in `[0,0xFFFF]`. -/
theorem write16_read16_roundtrip (bus : Bus) (hok : Succeeds bus)
    (hloop : ∀ h, (bus.get_array_value h 16).2 = lineWord (levelOf h) 16)
    (h : Trace) (reg v result : Nat) (hreg : reg ≤ 7) (hv : v ≤ 0xFFFF) :
    (pata_gpio_write16 bus claimed h reg v).1 = 0 ∧
    (pata_gpio_read16 bus claimed (pata_gpio_write16 bus claimed h reg v).2 reg result).1 = 0 ∧
    (pata_gpio_read16 bus claimed (pata_gpio_write16 bus claimed h reg v).2 reg result).2.1
      = v := by
  have _ := hreg
  rw [write16_ok bus hok, read16_ok bus hok]
  refine ⟨rfl, rfl, ?_⟩
  simp only
  rw [hloop, levelOf_sampling,
    lineWord_of_testBit _ v 16 (fun i hi => by rw [levelOf_written]; simp [hi])]
  omega

theorem write16_read16_roundtrip_witness :
    Succeeds loopbackBus ∧
    (∀ h, (loopbackBus.get_array_value h 16).2 = lineWord (levelOf h) 16) ∧
    (3 : Nat) ≤ 7 ∧ (0xBEEF : Nat) ≤ 0xFFFF ∧
    (pata_gpio_read16 loopbackBus claimed
      (pata_gpio_write16 loopbackBus claimed [] 3 0xBEEF).2 3 0).2.1 = 0xBEEF := by
  have hok : Succeeds loopbackBus := ⟨fun _ _ _ _ => rfl, fun _ _ => rfl, fun _ _ => rfl,
    fun _ _ _ => rfl⟩
  exact ⟨hok, fun _ => rfl, by decide, by decide,
    (write16_read16_roundtrip loopbackBus hok (fun _ => rfl) [] 3 0xBEEF 0
      (by decide) (by decide)).2.2⟩

/-! ## IDENTIFY DEVICE on a bus where every call succeeds -/

theorem expand_length (w : Nat → Nat) (n j : Nat) : (expand w n j).length = 2 * n := by
  induction n generalizing j with
  | zero => rfl
  | succ n ih => simp only [expand, List.length_cons, ih]; omega

theorem expand_even (w : Nat → Nat) (n j i : Nat) (hi : i < n) :
    (expand w n j)[2 * i]? = some ((w (j + i) >>> 8) &&& 0xFF) := by
  induction n generalizing j i with
  | zero => omega
  | succ n ih =>
      cases i with
      | zero => rfl
      | succ i =>
          have e1 : 2 * (i + 1) = 2 * i + 1 + 1 := by omega
          have e2 : j + (i + 1) = j + 1 + i := by omega
          rw [expand, e1, List.getElem?_cons_succ, List.getElem?_cons_succ, ih (j + 1) i (by omega),
            e2]

theorem expand_odd (w : Nat → Nat) (n j i : Nat) (hi : i < n) :
    (expand w n j)[2 * i + 1]? = some (w (j + i) &&& 0xFF) := by
  induction n generalizing j i with
  | zero => omega
  | succ n ih =>
      cases i with
      | zero => simp [expand]
      | succ i =>
          have e1 : 2 * (i + 1) + 1 = (2 * i + 1) + 1 + 1 := by omega
          have e2 : j + (i + 1) = j + 1 + i := by omega
          rw [expand, e1, List.getElem?_cons_succ, List.getElem?_cons_succ, ih (j + 1) i (by omega),
            e2]

theorem burst_loop_length (bus : Bus) (pata : pata_gpio) (rem : Nat) (s : Burst) :
    (burst_loop bus pata rem s).data.length = s.data.length + 2 * rem := by
  induction rem generalizing s with
  | zero => rfl
  | succ rem ih =>
      rw [burst_loop, ih]
      simp only [List.length_append, List.length_cons, List.length_nil]
      omega

theorem burst_loop_transactions (bus : Bus) (hok : Succeeds bus) (rem : Nat) (s : Burst) :
    transactions claimed (burst_loop bus claimed rem s).trace =
      transactions claimed s.trace ++ List.replicate rem (Txn.read 0) := by
  induction rem generalizing s with
  | zero => simp [burst_loop]
  | succ rem ih =>
      rw [burst_loop, ih]
      simp only [read16_ok bus hok, transactions_sampled, CF_DATA, CF_BASE_REG]
      rw [List.append_assoc]
      rfl

theorem burst_loop_dataReads (bus : Bus) (hok : Succeeds bus) (rem : Nat) (s : Burst) :
    dataReads claimed (burst_loop bus claimed rem s).trace = dataReads claimed s.trace + rem := by
  induction rem generalizing s with
  | zero => rfl
  | succ rem ih =>
      rw [burst_loop, ih]
      simp only [read16_ok bus hok, dataReads_sampled, CF_DATA, CF_BASE_REG]
      simp only [Nat.add_zero, Nat.zero_mod, if_true]
      omega

theorem burst_loop_data (bus : Bus) (hok : Succeeds bus) (status : Nat) (w : Nat → Nat)
    (h : Trace) (rem : Nat) (s : Burst) (j : Nat)
    (hs : s.trace = identified status w h j)
    (hsample : ∀ i, j ≤ i → i < j + rem →
      (bus.get_array_value (sampling 0 (identified status w h i)) 16).2 = w i)
    (hw : ∀ i, i < j + rem → w i < 65536) :
    (burst_loop bus claimed rem s).data = s.data ++ expand w rem j := by
  induction rem generalizing s j with
  | zero => simp [burst_loop, expand]
  | succ rem ih =>
      have hx : (bus.get_array_value (sampling 0 s.trace) 16).2 = w j := by
        rw [hs]
        exact hsample j (Nat.le_refl j) (by omega)
      have hwj : w j % 65536 = w j := Nat.mod_eq_of_lt (hw j (by omega))
      rw [burst_loop]
      simp only [read16_ok bus hok, CF_DATA, CF_BASE_REG, Nat.add_zero, hx, hwj]
      rw [ih _ (j + 1) (by simp only [hs, identified])
        (fun i hi1 hi2 => hsample i (by omega) (by omega)) (fun i hi => hw i (by omega))]
      simp [expand]

theorem transactions_sampling (reg : Nat) (h : Trace) :
    transactions claimed (sampling reg h) = transactions claimed h ++ [Txn.read (reg % 8)] := by
  simp only [sampling, transactions_usleep, transactions_strobe_read _ _ (csWord_selected reg _),
    addrWord_selected]
  simp only [selected, transactions_set_array, transactions_inputs_done]

theorem transactions_commanded (h : Trace) :
    transactions claimed (commanded h) =
      transactions claimed h ++ [Txn.write 6 0xA0, Txn.write 2 0x00, Txn.write 3 0x00,
        Txn.write 4 0x00, Txn.write 5 0x00, Txn.write 7 0xEC] := by
  simp [commanded, transactions_written]

theorem dataReads_commanded (h : Trace) :
    dataReads claimed (commanded h) = dataReads claimed h := by
  simp only [commanded, dataReads_written]

theorem dataReads_identified (status : Nat) (w : Nat → Nat) (h : Trace) (i : Nat) :
    dataReads claimed (identified status w h i) = dataReads claimed h + i := by
  induction i with
  | zero => simp [identified, dataReads_usleep, dataReads_sampled, dataReads_commanded]
  | succ i ih => simp only [identified, dataReads_sampled, ih, Nat.zero_mod, if_true]; omega

theorem commandDrive_succeeds (before after : Nat) (w : Nat → Nat) :
    Succeeds (commandDrive before after w) :=
  ⟨fun _ _ _ _ => rfl, fun _ _ => rfl, fun _ _ => rfl, fun _ _ _ => rfl⟩

theorem commandDrive_status (before after : Nat) (w : Nat → Nat) (h : Trace) :
    ((commandDrive before after w).get_array_value (sampling 7 (commanded h)) 16).2 = after := by
  have hm : Txn.write 7 0xEC ∈ transactions claimed (sampling 7 (commanded h)) := by
    rw [transactions_sampling, transactions_commanded]
    simp
  simp only [commandDrive, addrWord_sampling]
  rw [if_pos (by decide), if_pos hm]

theorem commandDrive_data (before after : Nat) (w : Nat → Nat) (status : Nat) (i : Nat) :
    ((commandDrive before after w).get_array_value
      (sampling 0 (identified status w [] i)) 16).2 = w i := by
  simp only [commandDrive, addrWord_sampling, dataReads_sampling, dataReads_identified]
  rw [if_neg (by decide)]
  simp [dataReads]

theorem identify_ok (bus : Bus) (hok : Succeeds bus) (h : Trace) (result0 : Nat) :
    cf_identify bus claimed h result0 =
      if (bus.get_array_value (sampling 7 (commanded h)) 16).2 % 65536 ≠ 0 then
        { ret := 1
          data := (burst_loop bus claimed 256
            { result := (bus.get_array_value (sampling 7 (commanded h)) 16).2 % 65536
              data := []
              trace := Ev.usleep_range 1000000 1000000 ::
                sampled 7 0 ((bus.get_array_value (sampling 7 (commanded h)) 16).2 % 65536)
                  (commanded h) }).data
          trace := (burst_loop bus claimed 256
            { result := (bus.get_array_value (sampling 7 (commanded h)) 16).2 % 65536
              data := []
              trace := Ev.usleep_range 1000000 1000000 ::
                sampled 7 0 ((bus.get_array_value (sampling 7 (commanded h)) 16).2 % 65536)
                  (commanded h) }).trace }
      else
        { ret := 0, data := []
          trace := sampled 7 0 ((bus.get_array_value (sampling 7 (commanded h)) 16).2 % 65536)
            (commanded h) } := by
  simp only [cf_identify, write16_ok bus hok, read16_ok bus hok, CF_ADDR3, CF_NUMSECT, CF_ADDR0,
    CF_ADDR1, CF_ADDR2, CF_COMMAND, CF_STATUS, CF_BASE_REG, SECTOR_SIZE, commanded]

/-! ## IDENTIFY DEVICE: the claims -/

/-- C1: on a bus where every GPIO call succeeds, on which the Status read of `cf_identify`
(the sample at register 7 taken after the six register writes) gives a non-zero 16-bit `status`
and on which the 256 successive reads of the Data register give the 16-bit words
`w 0, ..., w 255`, `cf_identify` returns 1, reads the Data register exactly 256 times (after the
seven transactions of the prologue), and stores exactly 512 bytes, byte `2i` being
`(w i >> 8) & 0xFF` and byte `2i+1` being `w i & 0xFF` for every `i` in `[0,255]`. -/
theorem identify_expands_words (bus : Bus) (hok : Succeeds bus) (h : Trace) (result0 : Nat)
    (status : Nat) (w : Nat → Nat)
    (hstatus : (bus.get_array_value (sampling 7 (commanded h)) 16).2 = status)
    (hdata : ∀ i, i < 256 →
      (bus.get_array_value (sampling 0 (identified status w h i)) 16).2 = w i)
    (hs0 : status ≠ 0) (hs16 : status ≤ 0xFFFF) (hw : ∀ i, i < 256 → w i ≤ 0xFFFF) :
    (cf_identify bus claimed h result0).ret = 1 ∧
    dataReads claimed (cf_identify bus claimed h result0).trace = dataReads claimed h + 256 ∧
    transactions claimed (cf_identify bus claimed h result0).trace =
      transactions claimed h ++ identify_prologue ++ List.replicate 256 (Txn.read 0) ∧
    (cf_identify bus claimed h result0).data.length = 512 ∧
    ∀ i, i < 256 →
      (cf_identify bus claimed h result0).data[2 * i]? = some ((w i >>> 8) &&& 0xFF) ∧
      (cf_identify bus claimed h result0).data[2 * i + 1]? = some (w i &&& 0xFF) := by
  have hst : (bus.get_array_value (sampling 7 (commanded h)) 16).2 % 65536 = status := by
    rw [hstatus]
    omega
  have hne : status ≠ 0 := hs0
  rw [identify_ok bus hok, hst, if_pos hne]
  have hd := burst_loop_data bus hok status w h 256
    { result := status, data := [],
      trace := Ev.usleep_range 1000000 1000000 :: sampled 7 0 status (commanded h) } 0
    rfl (fun i _ hi => hdata i (by omega))
    (fun i hi => by have := hw i (by omega); omega)
  simp only [List.nil_append] at hd
  refine ⟨rfl, ?_, ?_, ?_, ?_⟩
  · simp [burst_loop_dataReads bus hok, dataReads_usleep, dataReads_sampled, dataReads_commanded]
  · simp only [burst_loop_transactions bus hok, transactions_usleep, transactions_sampled,
      transactions_commanded, identify_prologue, List.append_assoc, List.cons_append,
      List.nil_append]
  · simp only [hd, expand_length]
  · intro i hi
    simp only [hd]
    have he := expand_even w 256 0 i hi
    have ho := expand_odd w 256 0 i hi
    rw [Nat.zero_add] at he ho
    exact ⟨he, ho⟩

theorem identify_expands_words_witness :
    Succeeds (commandDrive 0 0x58 patternWord) ∧
    ((commandDrive 0 0x58 patternWord).get_array_value (sampling 7 (commanded [])) 16).2
      = 0x58 ∧
    (∀ i, i < 256 → ((commandDrive 0 0x58 patternWord).get_array_value
      (sampling 0 (identified 0x58 patternWord [] i)) 16).2 = patternWord i) ∧
    (cf_identify (commandDrive 0 0x58 patternWord) claimed [] 0).ret = 1 ∧
    (cf_identify (commandDrive 0 0x58 patternWord) claimed [] 0).data.length = 512 ∧
    (∀ i, i < 256 →
      (cf_identify (commandDrive 0 0x58 patternWord) claimed [] 0).data[2 * i]? =
        some ((patternWord i >>> 8) &&& 0xFF) ∧
      (cf_identify (commandDrive 0 0x58 patternWord) claimed [] 0).data[2 * i + 1]? =
        some (patternWord i &&& 0xFF)) ∧
    patternWord 0 = 0x0102 ∧ patternWord 1 = 0x0304 ∧ patternWord 255 = 0xFF00 ∧
    (cf_identify (commandDrive 0 0x58 patternWord) claimed [] 0).data[0]? = some 0x01 ∧
    (cf_identify (commandDrive 0 0x58 patternWord) claimed [] 0).data[1]? = some 0x02 ∧
    (cf_identify (commandDrive 0 0x58 patternWord) claimed [] 0).data[2]? = some 0x03 ∧
    (cf_identify (commandDrive 0 0x58 patternWord) claimed [] 0).data[3]? = some 0x04 ∧
    (cf_identify (commandDrive 0 0x58 patternWord) claimed [] 0).data[510]? = some 0xFF ∧
    (cf_identify (commandDrive 0 0x58 patternWord) claimed [] 0).data[511]? = some 0x00 := by
  have hok := commandDrive_succeeds 0 0x58 patternWord
  have hst := commandDrive_status 0 0x58 patternWord []
  have hdt : ∀ i, i < 256 → ((commandDrive 0 0x58 patternWord).get_array_value
      (sampling 0 (identified 0x58 patternWord [] i)) 16).2 = patternWord i :=
    fun i _ => commandDrive_data 0 0x58 patternWord 0x58 i
  have hpat : ∀ i, i < 256 → patternWord i ≤ 0xFFFF := by
    intro i _
    have h1 : (2 * i + 1) % 256 < 256 := Nat.mod_lt _ (by decide)
    have h2 : (2 * i + 2) % 256 < 256 := Nat.mod_lt _ (by decide)
    have h3 : ((2 * i + 1) % 256) <<< 8 < 2 ^ 16 := by
      rw [Nat.shiftLeft_eq]
      omega
    have h4 : (2 * i + 2) % 256 < 2 ^ 16 := by omega
    have := Nat.or_lt_two_pow h3 h4
    simp only [patternWord]
    omega
  have key := identify_expands_words (commandDrive 0 0x58 patternWord) hok [] 0 0x58
    patternWord hst hdt (by decide) (by decide) hpat
  exact ⟨hok, hst, hdt, key.1, key.2.2.2.1, key.2.2.2.2, by decide, by decide, by decide,
    (key.2.2.2.2 0 (by decide)).1, (key.2.2.2.2 0 (by decide)).2,
    (key.2.2.2.2 1 (by decide)).1, (key.2.2.2.2 1 (by decide)).2,
    (key.2.2.2.2 255 (by decide)).1, (key.2.2.2.2 255 (by decide)).2⟩

/-- C3: on a bus where every GPIO call succeeds and on which the Status read of `cf_identify`
(the sample at register 7 taken right after the command `0xEC` was written) gives `0x00`,
`cf_identify` returns 0 (device absent), stores nothing, and makes no read of the Data register:
its transactions are exactly the prologue. -/
theorem identify_absent_no_data_reads (bus : Bus) (hok : Succeeds bus) (h : Trace)
    (result0 : Nat)
    (hstatus : (bus.get_array_value (sampling 7 (commanded h)) 16).2 = 0) :
    (cf_identify bus claimed h result0).ret = 0 ∧
    (cf_identify bus claimed h result0).data = [] ∧
    dataReads claimed (cf_identify bus claimed h result0).trace = dataReads claimed h ∧
    transactions claimed (cf_identify bus claimed h result0).trace =
      transactions claimed h ++ identify_prologue := by
  have hst : (bus.get_array_value (sampling 7 (commanded h)) 16).2 % 65536 = 0 := by
    rw [hstatus]
  rw [identify_ok bus hok, hst, if_neg (fun hc => hc rfl)]
  refine ⟨rfl, rfl, ?_, ?_⟩
  · simp [dataReads_sampled, dataReads_commanded]
  · simp [transactions_sampled, transactions_commanded, identify_prologue]

theorem identify_absent_no_data_reads_witness :
    Succeeds (commandDrive 0x50 0 patternWord) ∧
    ((commandDrive 0x50 0 patternWord).get_array_value (sampling 7 (commanded [])) 16).2 = 0 ∧
    (cf_identify (commandDrive 0x50 0 patternWord) claimed [] 0x1234).ret = 0 ∧
    (cf_identify (commandDrive 0x50 0 patternWord) claimed [] 0x1234).data = [] ∧
    dataReads claimed (cf_identify (commandDrive 0x50 0 patternWord) claimed [] 0x1234).trace
      = 0 := by
  have hok := commandDrive_succeeds 0x50 0 patternWord
  have hst := commandDrive_status 0x50 0 patternWord []
  have key := identify_absent_no_data_reads (commandDrive 0x50 0 patternWord) hok [] 0x1234 hst
  exact ⟨hok, hst, key.1, key.2.1, key.2.2.1⟩

/-- C5: on a bus where every GPIO call succeeds, the register transactions of `cf_identify`
begin with exactly write(6, 0xA0), write(2, 0), write(3, 0), write(4, 0), write(5, 0),
write(7, 0xEC), read(7), in this order; whatever follows is reads of the Data register only (none,
or 256 of them), so no other register is written and no Data register read precedes the Status
read. -/
theorem identify_prologue_in_order (bus : Bus) (hok : Succeeds bus) (h : Trace)
    (result0 : Nat) :
    ∃ rest, transactions claimed (cf_identify bus claimed h result0).trace =
        transactions claimed h ++
          [Txn.write 6 0xA0, Txn.write 2 0x00, Txn.write 3 0x00, Txn.write 4 0x00,
           Txn.write 5 0x00, Txn.write 7 0xEC, Txn.read 7] ++ rest ∧
      (rest = [] ∨ rest = List.replicate 256 (Txn.read 0)) := by
  rw [identify_ok bus hok]
  by_cases hst : (bus.get_array_value (sampling 7 (commanded h)) 16).2 % 65536 = 0
  · refine ⟨[], ?_, Or.inl rfl⟩
    simp [hst, transactions_sampled, transactions_commanded]
  · refine ⟨List.replicate 256 (Txn.read 0), ?_, Or.inr rfl⟩
    simp only [ne_eq, hst, not_false_eq_true, if_true]
    simp only [burst_loop_transactions bus hok, transactions_usleep, transactions_sampled,
      transactions_commanded, List.append_assoc, List.cons_append, List.nil_append]

theorem identify_prologue_in_order_witness :
    Succeeds (mockDrive 0 patternWord) ∧
    ∃ rest, transactions claimed (cf_identify (mockDrive 0 patternWord) claimed [] 0).trace =
        transactions claimed [] ++
          [Txn.write 6 0xA0, Txn.write 2 0x00, Txn.write 3 0x00, Txn.write 4 0x00,
           Txn.write 5 0x00, Txn.write 7 0xEC, Txn.read 7] ++ rest ∧
      (rest = [] ∨ rest = List.replicate 256 (Txn.read 0)) := by
  have hok : Succeeds (mockDrive 0 patternWord) :=
    ⟨fun _ _ _ _ => rfl, fun _ _ => rfl, fun _ _ => rfl, fun _ _ _ => rfl⟩
  exact ⟨hok, identify_prologue_in_order (mockDrive 0 patternWord) hok [] 0⟩

/-! ## Errors under IDENTIFY DEVICE (C4) -/

set_option maxRecDepth 1000000 in
/-- C4 is what the code should do and does not. On a bus where every `gpiod_direction_output`
fails with `-5`, the first register write of `cf_identify` returns `-5` (and so do the other
five, so that the command is never strobed into the drive), yet `cf_identify` returns 1
(present) and stores 512 bytes. On a bus where sampling the data bus fails with `-5`, the status
read returns `-5` and leaves the local `result` unwritten, and `cf_identify` answers from that
indeterminate value: 0 (absent) when it happens to be 0, 1 (present, 512 bytes stored) when it
happens to be 1. In no case is the error returned. -/
theorem identify_swallows_gpio_errors :
    (pata_gpio_write16 outputFailBus claimed [] CF_ADDR3 0xA0).1 = -5 ∧
    (cf_identify outputFailBus claimed [] 0).ret = 1 ∧
    (cf_identify outputFailBus claimed [] 0).data.length = 512 ∧
    (cf_identify outputFailBus claimed [] 0).data.take 4 = [0x00, 0x50, 0x00, 0x50] ∧
    (pata_gpio_read16 sampleFailBus claimed (commanded []) CF_STATUS 0) =
      (-5, 0, sampled 7 (-5) 0 (commanded [])) ∧
    (pata_gpio_read16 sampleFailBus claimed (commanded []) CF_STATUS 1).2.1 = 1 ∧
    (cf_identify sampleFailBus claimed [] 0).ret = 0 ∧
    (cf_identify sampleFailBus claimed [] 1).ret = 1 ∧
    (cf_identify sampleFailBus claimed [] 1).data.length = 512 := by
  decide

/-! ## Claiming the GPIO groups (C9) -/

/-- C9: for an obtained group, `claim_gpios` returns 0 and stores the group in the target exactly
when the group's line count equals `count`; when it differs, `claim_gpios` returns `-EINVAL` and
leaves the target as it was; and when `pata_gpio_probe` obtains a group `g` with a wrong line
count (the groups claimed before it being in order), it returns `-EINVAL` with no GPIO call
made: no register read or write, no strobe or reset operation. -/
theorem claim_gpios_rejects_wrong_count (target : Option gpio_descs) (count : Nat)
    (grp : gpio_descs) (plat : Platform) (bus : Bus) (h : Trace) (junk : Nat) (g : Group)
    (got : gpio_descs)
    (hk : plat.kzalloc_ok = true)
    (hbefore : ∀ g1 ∈ claimedBefore g, plat.get_array g1 = some ⟨required g1⟩)
    (hg : plat.get_array g = some got) (hbad : got.ndescs ≠ required g) :
    (((claim_gpios target count (some grp)).1 = 0 ∧
        (claim_gpios target count (some grp)).2 = some grp) ↔ grp.ndescs = count) ∧
    (grp.ndescs ≠ count → claim_gpios target count (some grp) = (-EINVAL, target)) ∧
    pata_gpio_probe plat bus h junk = (-EINVAL, h) := by
  refine ⟨?_, ?_, ?_⟩
  · by_cases hc : grp.ndescs = count
    · simp [claim_gpios, hc]
    · simp [claim_gpios, hc, EINVAL]
  · intro hc
    simp [claim_gpios, hc]
  · cases g with
    | led =>
        simp [pata_gpio_probe, hk, hg, claim_gpios, required] at hbad ⊢
        simp [hbad, EINVAL]
    | databus =>
        have h1 := hbefore Group.led (by simp [claimedBefore])
        simp [pata_gpio_probe, hk, hg, h1, claim_gpios, required] at hbad ⊢
        simp [hbad, EINVAL]
    | cs =>
        have h1 := hbefore Group.led (by simp [claimedBefore])
        have h2 := hbefore Group.databus (by simp [claimedBefore])
        simp [pata_gpio_probe, hk, hg, h1, h2, claim_gpios, required] at hbad ⊢
        simp [hbad, EINVAL]
    | address =>
        have h1 := hbefore Group.led (by simp [claimedBefore])
        have h2 := hbefore Group.databus (by simp [claimedBefore])
        have h3 := hbefore Group.cs (by simp [claimedBefore])
        simp [pata_gpio_probe, hk, hg, h1, h2, h3, claim_gpios, required] at hbad ⊢
        simp [hbad, EINVAL]

theorem claim_gpios_rejects_wrong_count_witness :
    (platformWithDatabus 15).kzalloc_ok = true ∧
    (∀ g1 ∈ claimedBefore Group.databus,
      (platformWithDatabus 15).get_array g1 = some ⟨required g1⟩) ∧
    (platformWithDatabus 15).get_array Group.databus = some ⟨15⟩ ∧
    (15 : Nat) ≠ required Group.databus ∧
    claim_gpios none 16 (some ⟨15⟩) = (-EINVAL, none) ∧
    pata_gpio_probe (platformWithDatabus 15) loopbackBus [] 0 = (-EINVAL, []) := by
  have hb : ∀ g1 ∈ claimedBefore Group.databus,
      (platformWithDatabus 15).get_array g1 = some ⟨required g1⟩ := by
    intro g1 hg1
    simp only [claimedBefore, List.mem_singleton] at hg1
    subst hg1
    rfl
  have key := claim_gpios_rejects_wrong_count none 16 ⟨15⟩ (platformWithDatabus 15) loopbackBus
    [] 0 Group.databus ⟨15⟩ rfl hb rfl (by decide)
  exact ⟨rfl, hb, rfl, by decide, key.2.1 (by decide), key.2.2⟩

end PataGpio
